import Mathlib

/-!
# GreenTwinkler: duty-cycle oscillator and lighting-mode scheduler

A shallow embedding of `src/GreenTwinkler/main.c` (target ATtiny814).

* Machine integers are natural numbers; every store into an 8-bit register is
  reduced `% 256`, every store into a `uint16_t` is reduced `% 65536`.
* A `led_pin` of the source holds a pointer `duty_ptr` to an 8-bit compare
  register and a `state`.  `main` gives every pin a register of its own
  (`HCMP0`, `HCMP1`, `HCMP2`), so the embedding stores the content of the
  addressed register in the pin itself (field `duty`).
* The globals, the function-local `static` counter `rounds` of the interrupt
  routine, and the four `TCA0.SPLIT` registers the code writes form one record
  `state`, which every routine takes and returns.
* The compile-time switch `DEBUG` is a `Bool` argument; the bit masks of the
  device header, which is not part of the repository, are the argument `io`.
-/

namespace GreenTwinkler

/-! ## Constants -/

/-- The `#define PERIOD (100)` of the source. -/
def PERIOD : Nat := 100

/-- The `#define DUTY_MAX (PERIOD)` of the source. -/
def DUTY_MAX : Nat := PERIOD

/-- The `#define DUTY_MIN (5)` of the source. -/
def DUTY_MIN : Nat := 5

/-- Seconds of operation: `15` under `#ifdef DEBUG`, `21600L` otherwise. -/
def OPERATION_TIME (DEBUG : Bool) : Nat := if DEBUG then 15 else 21600

/-- Seconds of sleep: `5` under `#ifdef DEBUG`, `64800L` otherwise. -/
def SLEEP_TIME (DEBUG : Bool) : Nat := if DEBUG then 5 else 64800

/-! ## Types -/

/-- The enum `pwm_state` of the source. -/
inductive pwm_state where
  | SINKING
  | RAISING
  deriving DecidableEq, Repr

/-- The struct `led_pin`: `duty` is the content of the register `duty_ptr`
addresses, `state` the direction of the triangle wave. -/
structure led_pin where
  duty : Nat
  state : pwm_state
  deriving DecidableEq, Repr

/-! ## The oscillator step -/

/-- The function `process_duty`: the two early returns flip the direction, the
code after them increments or decrements the 8-bit register. -/
def process_duty (pin : led_pin) : led_pin :=
  if pin.state = pwm_state.RAISING ∧ pin.duty ≥ DUTY_MAX then
    { pin with state := pwm_state.SINKING }
  else if pin.state = pwm_state.SINKING ∧ pin.duty ≤ DUTY_MIN then
    { pin with state := pwm_state.RAISING }
  else if pin.state = pwm_state.RAISING then
    { pin with duty := (pin.duty + 1) % 256 }
  else
    { pin with duty := (pin.duty + 255) % 256 }

/-! ## The machine state -/

/-- The bit masks and group configurations of the `TCA0.SPLIT` peripheral that
the source takes from the device header `avr/io.h`. -/
structure iodefs where
  TCA_SPLIT_ENABLE_bm : Nat
  TCA_SPLIT_HCMP0EN_bm : Nat
  TCA_SPLIT_HCMP1EN_bm : Nat
  TCA_SPLIT_HCMP2EN_bm : Nat
  TCA_SPLIT_CLKSEL_DIV16_gc : Nat
  TCA_SPLIT_SPLITM_bm : Nat
  deriving DecidableEq, Repr

/-- Every mask of the header fits the 8-bit register it is written to. -/
def iodefs.fits8 (hw : iodefs) : Prop :=
  hw.TCA_SPLIT_ENABLE_bm < 256 ∧ hw.TCA_SPLIT_HCMP0EN_bm < 256 ∧
  hw.TCA_SPLIT_HCMP1EN_bm < 256 ∧ hw.TCA_SPLIT_HCMP2EN_bm < 256 ∧
  hw.TCA_SPLIT_CLKSEL_DIV16_gc < 256 ∧ hw.TCA_SPLIT_SPLITM_bm < 256

instance (hw : iodefs) : Decidable hw.fits8 := by
  unfold iodefs.fits8; infer_instance

/-- The values the ATtiny814 header gives the masks: enable bit 0 of `CTRLA`,
compare enables bits 4, 5 and 6 of `CTRLB`, clock select `0x04 << 1`, split
mode bit 0 of `CTRLD`. -/
def iotn814 : iodefs :=
  { TCA_SPLIT_ENABLE_bm := 0x01
    TCA_SPLIT_HCMP0EN_bm := 0x10
    TCA_SPLIT_HCMP1EN_bm := 0x20
    TCA_SPLIT_HCMP2EN_bm := 0x40
    TCA_SPLIT_CLKSEL_DIV16_gc := 0x08
    TCA_SPLIT_SPLITM_bm := 0x01 }

/-- The globals of the source (`led_pin_count`, `RTC_counter_treshold`, `pins`,
`lights_enabled`), the `static volatile uint16_t rounds` of the interrupt
routine, and the registers `TCA0.SPLIT.CTRLA`, `CTRLB`, `CTRLD`, `HPER`.  The
global `mode` is never read or written and is left out. -/
structure mcu where
  led_pin_count : Nat
  RTC_counter_treshold : Nat
  pins : List led_pin
  lights_enabled : Bool
  rounds : Nat
  CTRLA : Nat
  CTRLB : Nat
  CTRLD : Nat
  HPER : Nat
  deriving DecidableEq, Repr

/-- The operator `~` of C on an operand promoted to the 16-bit `int` of the
target. -/
def bitnot (x : Nat) : Nat := x ^^^ 65535

/-! ## Peripheral set-up and the two mode transitions -/

/-- The function `init_pwm`: four plain register stores. -/
def init_pwm (hw : iodefs) (s : mcu) : mcu :=
  let s := { s with CTRLD := hw.TCA_SPLIT_SPLITM_bm % 256 }
  let s := { s with CTRLB := (hw.TCA_SPLIT_HCMP0EN_bm ||| hw.TCA_SPLIT_HCMP1EN_bm |||
                               hw.TCA_SPLIT_HCMP2EN_bm) % 256 }
  let s := { s with HPER := PERIOD % 256 }
  { s with CTRLA := hw.TCA_SPLIT_CLKSEL_DIV16_gc % 256 }

/-- One pass of the body of the `for` loop of `enable_lights` at index `i`:
`*pins[i].duty_ptr = (duty_segment * (i + 1)); pins[i].state = RAISING;`.  The
product is computed in `int` and stays below `2^15` (it is at most `100 * 100`
while `duty_segment` is not zero), the store keeps its low 8 bits. -/
def enable_lights_body (duty_segment : Nat) (s : mcu) (i : Nat) : mcu :=
  { s with pins := s.pins.set i ⟨(duty_segment * (i + 1)) % 256, pwm_state.RAISING⟩ }

/-- The function `enable_lights`.  The division `DUTY_MAX / led_pin_count` is
undefined for a zero count, where the embedding returns `none`; the loop runs
over `i = 0, ..., led_pin_count - 1`. -/
def enable_lights (DEBUG : Bool) (hw : iodefs) (s : mcu) : Option mcu :=
  let s := { s with lights_enabled := true }
  let s := { s with RTC_counter_treshold := OPERATION_TIME DEBUG % 65536 }
  if s.led_pin_count = 0 then none
  else
    let duty_segment := (DUTY_MAX / s.led_pin_count) % 256
    let s := (List.range s.led_pin_count).foldl (enable_lights_body duty_segment) s
    let s := { s with CTRLA := (s.CTRLA ||| hw.TCA_SPLIT_ENABLE_bm) % 256 }
    some { s with CTRLB := (s.CTRLB ||| (hw.TCA_SPLIT_HCMP0EN_bm ||| hw.TCA_SPLIT_HCMP1EN_bm |||
                                          hw.TCA_SPLIT_HCMP2EN_bm)) % 256 }

/-- The function `disable_lights`. -/
def disable_lights (DEBUG : Bool) (hw : iodefs) (s : mcu) : mcu :=
  let s := { s with lights_enabled := false }
  let s := { s with RTC_counter_treshold := SLEEP_TIME DEBUG % 65536 }
  let s := { s with CTRLB := (s.CTRLB &&& (bitnot hw.TCA_SPLIT_HCMP0EN_bm &&&
                               bitnot hw.TCA_SPLIT_HCMP1EN_bm &&&
                               bitnot hw.TCA_SPLIT_HCMP2EN_bm)) % 256 }
  { s with CTRLA := (s.CTRLA &&& bitnot hw.TCA_SPLIT_ENABLE_bm) % 256 }

/-! ## The RTC interrupt routine -/

/-- The routine `ISR(RTC_PIT_vect)`: `rounds++` on a `uint16_t`, then the
comparison with the threshold and, when it holds, the reset of `rounds` and the
transition chosen by `lights_enabled`.  The acknowledge store to
`RTC.PITINTFLAGS` touches no modelled state. -/
def ISR_RTC_PIT_vect (DEBUG : Bool) (hw : iodefs) (s : mcu) : Option mcu :=
  let s := { s with rounds := (s.rounds + 1) % 65536 }
  if s.rounds ≥ s.RTC_counter_treshold then
    let s := { s with rounds := 0 }
    if s.lights_enabled then some (disable_lights DEBUG hw s)
    else enable_lights DEBUG hw s
  else some s

/-- The state after `n` invocations of the interrupt routine, from `s`. -/
def ticks (DEBUG : Bool) (hw : iodefs) : Nat → mcu → Option mcu
  | 0, s => some s
  | n + 1, s => (ticks DEBUG hw n s).bind (ISR_RTC_PIT_vect DEBUG hw)

/-! ## Entry point -/

/-- The start-up part of `main` up to `sei()`: the channel table of three pins
is allocated (`p0`, `p1`, `p2` stand for the uninitialised `state` fields and
the register contents found there), then `init_pwm` and `enable_lights` run.
The clock, RTC and sleep-mode set-up touch no modelled state. -/
def main_startup (DEBUG : Bool) (hw : iodefs) (p0 p1 p2 : led_pin) (s : mcu) : Option mcu :=
  let s := { s with led_pin_count := 3 }
  let s := { s with pins := [p0, p1, p2] }
  let s := init_pwm hw s
  enable_lights DEBUG hw s

/-- One pass of the body of the `for` loop of `main` at index `i`:
`process_duty(&pins[i]);`. -/
def main_for_body (s : mcu) (i : Nat) : mcu :=
  { s with pins := s.pins.modify process_duty i }

/-- One iteration of the body of `while (1)` in `main`: with the lights on every
pin is stepped in index order, otherwise the processor sleeps. -/
def main_loop_body (s : mcu) : mcu :=
  if s.lights_enabled then
    (List.range s.led_pin_count).foldl main_for_body s
  else s

/-! ## Interleaving of the two execution contexts -/

/-- The two things that can happen next: the RTC interrupt fires, or the
foreground runs one iteration of `while (1)`. -/
inductive event where
  | tick
  | loop
  deriving DecidableEq, Repr

/-- The state after a sequence of events, each taken as one atomic step: a
`tick` runs the interrupt routine, a `loop` runs `main_loop_body`. -/
def run (DEBUG : Bool) (hw : iodefs) : List event → mcu → Option mcu
  | [], s => some s
  | event.tick :: es, s => (ISR_RTC_PIT_vect DEBUG hw s).bind (run DEBUG hw es)
  | event.loop :: es, s => run DEBUG hw es (main_loop_body s)

/-! ## The oscillator step over the integers -/

/-- The function `process_duty` read with unbounded integer arithmetic: the
same tests and branches as `process_duty`, with `++` and `--` as `+ 1` and
`- 1` on the integers, for comparison with the 8-bit version. -/
def process_duty_unbounded (duty : Int) (state : pwm_state) : Int × pwm_state :=
  if state = pwm_state.RAISING ∧ duty ≥ DUTY_MAX then
    (duty, pwm_state.SINKING)
  else if state = pwm_state.SINKING ∧ duty ≤ DUTY_MIN then
    (duty, pwm_state.RAISING)
  else if state = pwm_state.RAISING then
    (duty + 1, state)
  else
    (duty - 1, state)

/-! ## Output gating -/

/-- The timer enable bit of `CTRLA` and the three compare enable bits of `CTRLB`
are all set. -/
def gated_on (hw : iodefs) (s : mcu) : Prop :=
  s.CTRLA &&& hw.TCA_SPLIT_ENABLE_bm = hw.TCA_SPLIT_ENABLE_bm ∧
  s.CTRLB &&& hw.TCA_SPLIT_HCMP0EN_bm = hw.TCA_SPLIT_HCMP0EN_bm ∧
  s.CTRLB &&& hw.TCA_SPLIT_HCMP1EN_bm = hw.TCA_SPLIT_HCMP1EN_bm ∧
  s.CTRLB &&& hw.TCA_SPLIT_HCMP2EN_bm = hw.TCA_SPLIT_HCMP2EN_bm

/-- The timer enable bit of `CTRLA` and the three compare enable bits of `CTRLB`
are all cleared. -/
def gated_off (hw : iodefs) (s : mcu) : Prop :=
  s.CTRLA &&& hw.TCA_SPLIT_ENABLE_bm = 0 ∧
  s.CTRLB &&& hw.TCA_SPLIT_HCMP0EN_bm = 0 ∧
  s.CTRLB &&& hw.TCA_SPLIT_HCMP1EN_bm = 0 ∧
  s.CTRLB &&& hw.TCA_SPLIT_HCMP2EN_bm = 0

instance (hw : iodefs) (s : mcu) : Decidable (gated_on hw s) := by
  unfold gated_on; infer_instance

instance (hw : iodefs) (s : mcu) : Decidable (gated_off hw s) := by
  unfold gated_off; infer_instance

/-! ## Concrete states -/

/-- The state at reset: zero-initialised globals and `static` counter, empty
channel table, registers at their reset value zero. -/
def reset : mcu :=
  { led_pin_count := 0, RTC_counter_treshold := 0, pins := [], lights_enabled := false,
    rounds := 0, CTRLA := 0, CTRLB := 0, CTRLD := 0, HPER := 0 }

/-- The state the `DEBUG` build is in at `sei()` on the ATtiny814: lights on,
threshold 15, channels staggered. -/
def fresh_active : mcu :=
  { led_pin_count := 3, RTC_counter_treshold := 15,
    pins := [⟨33, pwm_state.RAISING⟩, ⟨66, pwm_state.RAISING⟩, ⟨99, pwm_state.RAISING⟩],
    lights_enabled := true, rounds := 0, CTRLA := 9, CTRLB := 112, CTRLD := 1, HPER := 100 }

/-- A state of the `DEBUG` build just after the lights went off, with the
channels where the foreground loop left them. -/
def fresh_sleeping : mcu :=
  { led_pin_count := 3, RTC_counter_treshold := 5,
    pins := [⟨5, pwm_state.SINKING⟩, ⟨50, pwm_state.SINKING⟩, ⟨70, pwm_state.RAISING⟩],
    lights_enabled := false, rounds := 0, CTRLA := 8, CTRLB := 0, CTRLD := 1, HPER := 100 }

/-- The sleeping state of the `DEBUG` build one tick before the lights go on
again: the counter stands at 4, the threshold at 5. -/
def sleeping_last_tick : mcu := { fresh_sleeping with rounds := 4 }

/-! ## Theorems -/

/-- One call of `process_duty` keeps an amplitude inside `[DUTY_MIN, DUTY_MAX]`. -/
theorem process_duty_keeps_bounds (pin : led_pin)
    (hlo : DUTY_MIN ≤ pin.duty) (hhi : pin.duty ≤ DUTY_MAX) :
    DUTY_MIN ≤ (process_duty pin).duty ∧ (process_duty pin).duty ≤ DUTY_MAX := by
  obtain ⟨d, st⟩ := pin
  simp only [DUTY_MIN, DUTY_MAX, PERIOD] at hlo hhi ⊢
  cases st <;> simp only [process_duty, DUTY_MIN, DUTY_MAX, PERIOD] <;> split_ifs <;>
    simp_all <;> omega

/-- C1: for a pin with an 8-bit amplitude, `process_duty` flips `RAISING` to
`SINKING` at an amplitude of at least `DUTY_MAX` and `SINKING` to `RAISING` at
an amplitude of at most `DUTY_MIN`, both without touching the amplitude;
otherwise it keeps the direction and moves the amplitude by exactly one, up
when `RAISING` and down when `SINKING`.  Exactly one of the two fields
changes. -/
theorem process_duty_flip_or_step (pin : led_pin) (h8 : pin.duty < 256) :
    (pin.state = pwm_state.RAISING ∧ DUTY_MAX ≤ pin.duty →
        process_duty pin = ⟨pin.duty, pwm_state.SINKING⟩) ∧
    (¬ (pin.state = pwm_state.RAISING ∧ DUTY_MAX ≤ pin.duty) →
      pin.state = pwm_state.SINKING ∧ pin.duty ≤ DUTY_MIN →
        process_duty pin = ⟨pin.duty, pwm_state.RAISING⟩) ∧
    (¬ (pin.state = pwm_state.RAISING ∧ DUTY_MAX ≤ pin.duty) →
      ¬ (pin.state = pwm_state.SINKING ∧ pin.duty ≤ DUTY_MIN) →
        (process_duty pin).state = pin.state ∧
        (pin.state = pwm_state.RAISING → (process_duty pin).duty = pin.duty + 1) ∧
        (pin.state = pwm_state.SINKING → (process_duty pin).duty + 1 = pin.duty)) ∧
    (((process_duty pin).state ≠ pin.state ∧ (process_duty pin).duty = pin.duty) ∨
      ((process_duty pin).state = pin.state ∧ (process_duty pin).duty ≠ pin.duty)) := by
  obtain ⟨d, st⟩ := pin
  simp only at h8
  cases st <;> simp only [process_duty, DUTY_MIN, DUTY_MAX, PERIOD] <;>
    refine ⟨?_, ?_, ?_, ?_⟩ <;> split_ifs <;> simp_all <;> omega

/-- The rule of C1 at the amplitude 42, in both directions. -/
theorem process_duty_flip_or_step_witness :
    (process_duty ⟨42, pwm_state.RAISING⟩).duty = 43 ∧
    (process_duty ⟨42, pwm_state.SINKING⟩).duty + 1 = 42 :=
  ⟨((process_duty_flip_or_step ⟨42, pwm_state.RAISING⟩ (by decide)).2.2.1
      (by decide) (by decide)).2.1 rfl,
   ((process_duty_flip_or_step ⟨42, pwm_state.SINKING⟩ (by decide)).2.2.1
      (by decide) (by decide)).2.2 rfl⟩

/-- C2: an amplitude that starts inside `[DUTY_MIN, DUTY_MAX]` is still inside
after any number of successive calls of `process_duty`, whatever the
direction. -/
theorem process_duty_iterate_bounded (pin : led_pin)
    (hlo : DUTY_MIN ≤ pin.duty) (hhi : pin.duty ≤ DUTY_MAX) (n : Nat) :
    DUTY_MIN ≤ (process_duty^[n] pin).duty ∧ (process_duty^[n] pin).duty ≤ DUTY_MAX := by
  induction n with
  | zero => exact ⟨hlo, hhi⟩
  | succ k ih =>
    rw [Function.iterate_succ_apply']
    exact process_duty_keeps_bounds _ ih.1 ih.2

/-- The bound of C2 after 1000 calls from the amplitude 33. -/
theorem process_duty_iterate_bounded_witness :
    DUTY_MIN ≤ (process_duty^[1000] ⟨33, pwm_state.RAISING⟩).duty ∧
    (process_duty^[1000] ⟨33, pwm_state.RAISING⟩).duty ≤ DUTY_MAX :=
  process_duty_iterate_bounded ⟨33, pwm_state.RAISING⟩ (by decide) (by decide) 1000

/-- C5: from `(DUTY_MAX, RAISING)` the first call gives `(100, SINKING)` and the
second `(99, SINKING)`; from `(DUTY_MIN, SINKING)` the first call gives
`(5, RAISING)` and the second `(6, RAISING)`. -/
theorem process_duty_dwell_then_reverse :
    process_duty ⟨DUTY_MAX, pwm_state.RAISING⟩ = ⟨100, pwm_state.SINKING⟩ ∧
    process_duty (process_duty ⟨DUTY_MAX, pwm_state.RAISING⟩) = ⟨99, pwm_state.SINKING⟩ ∧
    process_duty ⟨DUTY_MIN, pwm_state.SINKING⟩ = ⟨5, pwm_state.RAISING⟩ ∧
    process_duty (process_duty ⟨DUTY_MIN, pwm_state.SINKING⟩) = ⟨6, pwm_state.RAISING⟩ := by
  decide

set_option maxRecDepth 1000000 in
/-- C6: a channel started at `(DUTY_MIN, RAISING)` is back there after
`2 * (DUTY_MAX - DUTY_MIN) + 2 = 192` calls of `process_duty` and after no
smaller positive number of calls. -/
theorem process_duty_period :
    2 * (DUTY_MAX - DUTY_MIN) + 2 = 192 ∧
    process_duty^[2 * (DUTY_MAX - DUTY_MIN) + 2] ⟨DUTY_MIN, pwm_state.RAISING⟩ =
      ⟨DUTY_MIN, pwm_state.RAISING⟩ ∧
    ∀ k, k < 192 → 0 < k →
      process_duty^[k] ⟨DUTY_MIN, pwm_state.RAISING⟩ ≠ ⟨DUTY_MIN, pwm_state.RAISING⟩ := by
  decide

/-- The minimality of C6 at 191 calls, one short of the period. -/
theorem process_duty_period_witness :
    process_duty^[191] ⟨DUTY_MIN, pwm_state.RAISING⟩ ≠ ⟨DUTY_MIN, pwm_state.RAISING⟩ :=
  process_duty_period.2.2 191 (by decide) (by decide)

/-! ### Start-up of the `DEBUG` build -/

/-- From reset, the start-up part of `main` of the `DEBUG` build on the
ATtiny814 ends in `fresh_active`, whatever the allocated table held. -/
theorem main_startup_debug (p0 p1 p2 : led_pin) :
    main_startup true iotn814 p0 p1 p2 reset = some fresh_active := by
  simp [main_startup, enable_lights, enable_lights_body, init_pwm, reset, fresh_active,
    iotn814, OPERATION_TIME, DUTY_MAX, PERIOD, List.range_succ]

/-- Switching the lights off in `fresh_active`, with the channels moved on by
the foreground loop, gives `fresh_sleeping`. -/
theorem disable_lights_debug :
    disable_lights true iotn814 { fresh_active with pins := fresh_sleeping.pins } =
      fresh_sleeping := by
  decide

/-! ### The interrupt routine, case by case -/

/-- Both duration constants of either build fit the 16-bit threshold. -/
theorem SLEEP_TIME_mod (DEBUG : Bool) : SLEEP_TIME DEBUG % 65536 = SLEEP_TIME DEBUG := by
  cases DEBUG <;> decide

/-- Both duration constants of either build fit the 16-bit threshold. -/
theorem OPERATION_TIME_mod (DEBUG : Bool) :
    OPERATION_TIME DEBUG % 65536 = OPERATION_TIME DEBUG := by
  cases DEBUG <;> decide

/-- Below the threshold the routine only stores the incremented counter. -/
theorem ISR_below (DEBUG : Bool) (hw : iodefs) (s : mcu)
    (h : (s.rounds + 1) % 65536 < s.RTC_counter_treshold) :
    ISR_RTC_PIT_vect DEBUG hw s = some { s with rounds := (s.rounds + 1) % 65536 } := by
  simp [ISR_RTC_PIT_vect, Nat.not_le.mpr h]

/-- At the threshold with the lights on the routine calls `disable_lights`. -/
theorem ISR_fire_active (DEBUG : Bool) (hw : iodefs) (s : mcu)
    (h : s.RTC_counter_treshold ≤ (s.rounds + 1) % 65536) (hl : s.lights_enabled = true) :
    ISR_RTC_PIT_vect DEBUG hw s = some (disable_lights DEBUG hw { s with rounds := 0 }) := by
  simp [ISR_RTC_PIT_vect, h, hl]

/-- At the threshold with the lights off the routine calls `enable_lights`. -/
theorem ISR_fire_sleeping (DEBUG : Bool) (hw : iodefs) (s : mcu)
    (h : s.RTC_counter_treshold ≤ (s.rounds + 1) % 65536) (hl : s.lights_enabled = false) :
    ISR_RTC_PIT_vect DEBUG hw s = enable_lights DEBUG hw { s with rounds := 0 } := by
  simp [ISR_RTC_PIT_vect, h, hl]

/-! ### The loop of `enable_lights` -/

/-- The loop of `enable_lights` over the first `n` indices writes only the
channel table: the entries below `n` hold the staggered values, the others are
as before. -/
theorem enable_lights_loop (seg : Nat) (s : mcu) (n : Nat) :
    ∃ ps : List led_pin,
      (List.range n).foldl (enable_lights_body seg) s = { s with pins := ps } ∧
      ps.length = s.pins.length ∧
      (∀ i, i < n → i < s.pins.length →
        ps[i]? = some ⟨(seg * (i + 1)) % 256, pwm_state.RAISING⟩) ∧
      (∀ i, n ≤ i → ps[i]? = s.pins[i]?) := by
  induction n with
  | zero => exact ⟨s.pins, by simp, rfl, by simp, by simp⟩
  | succ k ih =>
    obtain ⟨ps, hfold, hlen, hlow, hhigh⟩ := ih
    refine ⟨ps.set k ⟨(seg * (k + 1)) % 256, pwm_state.RAISING⟩, ?_, ?_, ?_, ?_⟩
    · rw [List.range_succ, List.foldl_append, hfold]
      simp [enable_lights_body]
    · simp [hlen]
    · intro i hi hil
      by_cases hik : i = k
      · subst hik
        simp [List.getElem?_set, hlen, hil]
      · rw [List.getElem?_set_ne (Ne.symm hik)]
        exact hlow i (by omega) hil
    · intro i hi
      rw [List.getElem?_set_ne (by omega)]
      exact hhigh i (by omega)

/-- With at least one channel `enable_lights` returns, and the state it returns
differs from its argument only in `lights_enabled`, the threshold, the channel
table and the two control registers. -/
theorem enable_lights_some (DEBUG : Bool) (hw : iodefs) (s : mcu) (hc : 0 < s.led_pin_count) :
    ∃ ps : List led_pin,
      enable_lights DEBUG hw s = some
        { s with
          lights_enabled := true
          RTC_counter_treshold := OPERATION_TIME DEBUG
          pins := ps
          CTRLA := (s.CTRLA ||| hw.TCA_SPLIT_ENABLE_bm) % 256
          CTRLB := (s.CTRLB ||| (hw.TCA_SPLIT_HCMP0EN_bm ||| hw.TCA_SPLIT_HCMP1EN_bm |||
                      hw.TCA_SPLIT_HCMP2EN_bm)) % 256 } ∧
      ps.length = s.pins.length ∧
      (∀ i, i < s.led_pin_count → i < s.pins.length →
        ps[i]? = some ⟨((DUTY_MAX / s.led_pin_count) % 256 * (i + 1)) % 256,
          pwm_state.RAISING⟩) ∧
      (∀ i, s.led_pin_count ≤ i → ps[i]? = s.pins[i]?) := by
  obtain ⟨ps, hfold, hlen, hlow, hhigh⟩ :=
    enable_lights_loop ((DUTY_MAX / s.led_pin_count) % 256)
      { s with lights_enabled := true, RTC_counter_treshold := OPERATION_TIME DEBUG % 65536 }
      s.led_pin_count
  simp only [OPERATION_TIME_mod] at hfold
  refine ⟨ps, ?_, hlen, hlow, hhigh⟩
  have hne : s.led_pin_count ≠ 0 := by omega
  simp only [enable_lights, hne, if_false, OPERATION_TIME_mod, hfold]

/-! ### Mode-flip timing -/

/-- From a zero counter, `k` ticks below the threshold only count to `k`. -/
theorem ticks_counting (DEBUG : Bool) (hw : iodefs) (s : mcu) (hr : s.rounds = 0)
    (h16 : s.RTC_counter_treshold < 65536) (k : Nat) (hk : k < s.RTC_counter_treshold) :
    ticks DEBUG hw k s = some { s with rounds := k } := by
  induction k with
  | zero =>
    obtain ⟨c, thr, ps, l, r, a, b, d, h⟩ := s
    simp only at hr
    subst hr
    rfl
  | succ n ih =>
    have hmod : (n + 1) % 65536 = n + 1 := Nat.mod_eq_of_lt (by omega)
    rw [ticks, ih (by omega), Option.some_bind, ISR_below]
    · simp [hmod]
    · simp only [hmod]
      exact hk

/-- C3: from a state with a zero counter and a threshold `A` between 1 and
65535, each of the first `A - 1` ticks leaves the mode alone and the counter at
the number of ticks so far.  With the lights on, the `A`-th tick runs
`disable_lights`: lights off, counter 0, threshold `SLEEP_TIME`.  With the
lights off (and at least one channel), the `A`-th tick runs `enable_lights`:
lights on, counter 0, threshold `OPERATION_TIME`. -/
theorem mode_flip_timing (DEBUG : Bool) (hw : iodefs) (s : mcu) (A : Nat)
    (hA : 1 ≤ A) (hA16 : A < 65536) (hr : s.rounds = 0) (ht : s.RTC_counter_treshold = A) :
    (∀ k, k < A → ticks DEBUG hw k s = some { s with rounds := k }) ∧
    (s.lights_enabled = true →
      ticks DEBUG hw A s = some (disable_lights DEBUG hw s) ∧
      (disable_lights DEBUG hw s).lights_enabled = false ∧
      (disable_lights DEBUG hw s).rounds = 0 ∧
      (disable_lights DEBUG hw s).RTC_counter_treshold = SLEEP_TIME DEBUG) ∧
    (s.lights_enabled = false → 0 < s.led_pin_count →
      ∃ t, ticks DEBUG hw A s = some t ∧ enable_lights DEBUG hw s = some t ∧
        t.lights_enabled = true ∧ t.rounds = 0 ∧
        t.RTC_counter_treshold = OPERATION_TIME DEBUG) := by
  have hcount : ∀ k, k < A → ticks DEBUG hw k s = some { s with rounds := k } :=
    fun k hk => ticks_counting DEBUG hw s hr (by omega) k (by omega)
  obtain ⟨B, rfl⟩ : ∃ B, A = B + 1 := ⟨A - 1, by omega⟩
  have hmod : (B + 1) % 65536 = B + 1 := Nat.mod_eq_of_lt hA16
  have hlast : ticks DEBUG hw (B + 1) s =
      ISR_RTC_PIT_vect DEBUG hw { s with rounds := B } := by
    rw [ticks, hcount B (by omega), Option.some_bind]
  refine ⟨hcount, ?_, ?_⟩
  · intro hl
    have hfire := ISR_fire_active DEBUG hw { s with rounds := B } (by simp [hmod, ht]) hl
    obtain ⟨c, thr, ps, l, r, a, b, d, h⟩ := s
    simp only at hr
    subst hr
    refine ⟨?_, rfl, rfl, ?_⟩
    · rw [hlast]
      exact hfire
    · simp [disable_lights, SLEEP_TIME_mod]
  · intro hl hc
    have hfire := ISR_fire_sleeping DEBUG hw { s with rounds := B } (by simp [hmod, ht]) hl
    obtain ⟨ps, hen, -⟩ := enable_lights_some DEBUG hw s hc
    obtain ⟨c, thr, ps, l, r, a, b, d, h⟩ := s
    simp only at hr
    subst hr
    refine ⟨_, ?_, hen, rfl, rfl, rfl⟩
    rw [hlast, ← hen]
    exact hfire

/-- The timing of C3 in the `DEBUG` build: 14 ticks leave the lights on with
the counter at 14, the 15th switches them off; from the sleeping state the
5th tick switches them on again. -/
theorem mode_flip_timing_witness :
    ticks true iotn814 14 fresh_active = some { fresh_active with rounds := 14 } ∧
    ticks true iotn814 15 fresh_active = some (disable_lights true iotn814 fresh_active) ∧
    (∃ t, ticks true iotn814 5 fresh_sleeping = some t ∧ t.lights_enabled = true) :=
  ⟨(mode_flip_timing true iotn814 fresh_active 15 (by decide) (by decide) rfl rfl).1 14
      (by decide),
   ((mode_flip_timing true iotn814 fresh_active 15 (by decide) (by decide) rfl rfl).2.1 rfl).1,
   let ⟨t, ht, _, hl, _⟩ :=
     (mode_flip_timing true iotn814 fresh_sleeping 5 (by decide) (by decide) rfl rfl).2.2 rfl
       (by decide)
   ⟨t, ht, hl⟩⟩

/-! ### Phase staggering -/

/-- The staggered amplitude of a channel fits the 8-bit register. -/
theorem stagger_fits (c i : Nat) (hi : i < c) :
    ((DUTY_MAX / c) % 256 * (i + 1)) % 256 = (DUTY_MAX / c) * (i + 1) := by
  have h1 : DUTY_MAX / c ≤ 100 := Nat.div_le_self _ _
  have h2 : DUTY_MAX / c * c ≤ 100 := Nat.div_mul_le_self _ _
  have h3 : DUTY_MAX / c * (i + 1) ≤ DUTY_MAX / c * c := Nat.mul_le_mul_left _ (by omega)
  have h4 : (DUTY_MAX / c) % 256 = DUTY_MAX / c := Nat.mod_eq_of_lt (by omega)
  rw [h4]
  exact Nat.mod_eq_of_lt (by omega)

/-- C4: for a table of `led_pin_count >= 1` channels with any prior content,
`enable_lights` returns a state in which channel `i` has amplitude exactly
`(DUTY_MAX / led_pin_count) * (i + 1)` and direction `RAISING`; with three
channels the table is `33, 66, 99`, all `RAISING`. -/
theorem enable_lights_stagger (DEBUG : Bool) (hw : iodefs) (s : mcu)
    (hc : 1 ≤ s.led_pin_count) (hlen : s.pins.length = s.led_pin_count) :
    ∃ t, enable_lights DEBUG hw s = some t ∧
      t.led_pin_count = s.led_pin_count ∧ t.pins.length = s.led_pin_count ∧
      (∀ i, i < s.led_pin_count →
        t.pins[i]? = some ⟨(DUTY_MAX / s.led_pin_count) * (i + 1), pwm_state.RAISING⟩) ∧
      (s.led_pin_count = 3 →
        t.pins = [⟨33, pwm_state.RAISING⟩, ⟨66, pwm_state.RAISING⟩,
          ⟨99, pwm_state.RAISING⟩]) := by
  obtain ⟨ps, hen, hpl, hlow, -⟩ := enable_lights_some DEBUG hw s hc
  have hstag : ∀ i, i < s.led_pin_count →
      ps[i]? = some ⟨(DUTY_MAX / s.led_pin_count) * (i + 1), pwm_state.RAISING⟩ := by
    intro i hi
    rw [hlow i hi (by omega), stagger_fits _ _ hi]
  refine ⟨_, hen, rfl, by simpa [hlen] using hpl, hstag, ?_⟩
  intro h3
  apply List.ext_getElem?
  intro i
  by_cases hi : i < 3
  · have := hstag i (by omega)
    simp only [h3] at this
    interval_cases i <;> simpa [DUTY_MAX, PERIOD] using this
  · have hl : ps.length ≤ i := by omega
    simp only [List.getElem?_eq_none hl]
    have : [(⟨33, pwm_state.RAISING⟩ : led_pin), ⟨66, pwm_state.RAISING⟩,
        ⟨99, pwm_state.RAISING⟩].length ≤ i := by simp; omega
    rw [List.getElem?_eq_none this]

/-- The stagger of C4 on the three channels of the sleeping state, whatever
they held before. -/
theorem enable_lights_stagger_witness :
    ∃ t, enable_lights true iotn814 fresh_sleeping = some t ∧
      t.pins = [⟨33, pwm_state.RAISING⟩, ⟨66, pwm_state.RAISING⟩, ⟨99, pwm_state.RAISING⟩] :=
  let ⟨t, ht, _, _, _, h3⟩ :=
    enable_lights_stagger true iotn814 fresh_sleeping (by decide) (by decide)
  ⟨t, ht, h3 rfl⟩

/-! ### One tick, at most one transition -/

/-- The state `disable_lights` returns differs from its argument only in
`lights_enabled`, the threshold and the two control registers. -/
theorem disable_lights_eq (DEBUG : Bool) (hw : iodefs) (s : mcu) :
    disable_lights DEBUG hw s =
      { s with
        lights_enabled := false
        RTC_counter_treshold := SLEEP_TIME DEBUG
        CTRLB := (s.CTRLB &&& (bitnot hw.TCA_SPLIT_HCMP0EN_bm &&&
                    bitnot hw.TCA_SPLIT_HCMP1EN_bm &&& bitnot hw.TCA_SPLIT_HCMP2EN_bm)) % 256
        CTRLA := (s.CTRLA &&& bitnot hw.TCA_SPLIT_ENABLE_bm) % 256 } := by
  simp only [disable_lights, SLEEP_TIME_mod]

/-- C7: one invocation of the interrupt routine on a state with at least one
channel returns.  When the incremented 16-bit counter has reached the
threshold, the counter is reset to 0 and exactly one transition runs, chosen
by the mode held before: `disable_lights` with the lights on, `enable_lights`
with the lights off, so that the mode is the negation of the former mode.
Otherwise the routine only stores the incremented counter: mode and threshold
are as before. -/
theorem ISR_single_transition (DEBUG : Bool) (hw : iodefs) (s : mcu)
    (hc : 0 < s.led_pin_count) :
    ∃ t, ISR_RTC_PIT_vect DEBUG hw s = some t ∧
      (s.RTC_counter_treshold ≤ (s.rounds + 1) % 65536 →
        t.rounds = 0 ∧ t.lights_enabled = !s.lights_enabled ∧
        (s.lights_enabled = true →
          t = disable_lights DEBUG hw { s with rounds := 0 } ∧
          t.RTC_counter_treshold = SLEEP_TIME DEBUG) ∧
        (s.lights_enabled = false →
          enable_lights DEBUG hw { s with rounds := 0 } = some t ∧
          t.RTC_counter_treshold = OPERATION_TIME DEBUG)) ∧
      ((s.rounds + 1) % 65536 < s.RTC_counter_treshold →
        t = { s with rounds := (s.rounds + 1) % 65536 } ∧
        t.lights_enabled = s.lights_enabled ∧
        t.RTC_counter_treshold = s.RTC_counter_treshold) := by
  by_cases hfire : s.RTC_counter_treshold ≤ (s.rounds + 1) % 65536
  · rcases Bool.eq_false_or_eq_true s.lights_enabled with hl | hl
    · refine ⟨_, ISR_fire_active DEBUG hw s hfire hl, ?_, ?_⟩
      · intro _
        refine ⟨rfl, ?_, fun _ => ⟨rfl, ?_⟩, fun h => ?_⟩
        · simp [disable_lights_eq, hl]
        · simp [disable_lights_eq]
        · rw [hl] at h
          cases h
      · intro h
        omega
    · obtain ⟨ps, hen, -⟩ := enable_lights_some DEBUG hw { s with rounds := 0 } hc
      refine ⟨_, (ISR_fire_sleeping DEBUG hw s hfire hl).trans hen, ?_, ?_⟩
      · intro _
        refine ⟨rfl, ?_, fun h => ?_, fun _ => ⟨hen, rfl⟩⟩
        · simp [hl]
        · rw [hl] at h
          cases h
      · intro h
        omega
  · have hlt : (s.rounds + 1) % 65536 < s.RTC_counter_treshold := Nat.not_le.mp hfire
    exact ⟨_, ISR_below DEBUG hw s hlt, fun h => absurd h hfire, fun _ => ⟨rfl, rfl, rfl⟩⟩

/-- The single transition of C7 in a state whose counter is far above the
threshold: one tick switches the lights off once and resets the counter. -/
theorem ISR_single_transition_witness :
    ∃ t, ISR_RTC_PIT_vect true iotn814 { fresh_active with rounds := 5000 } = some t ∧
      t.rounds = 0 ∧ t.lights_enabled = false :=
  let ⟨t, ht, hfire, _⟩ :=
    ISR_single_transition true iotn814 { fresh_active with rounds := 5000 } (by decide)
  ⟨t, ht, (hfire (by decide)).1, (hfire (by decide)).2.1⟩

/-! ### Invariants of the scheduler -/

/-- A property that holds of a state and that every invocation of the interrupt
routine returns with, holds after any number of ticks. -/
theorem ticks_induction (DEBUG : Bool) (hw : iodefs) (P : mcu → Prop)
    (hstep : ∀ s, P s → ∃ t, ISR_RTC_PIT_vect DEBUG hw s = some t ∧ P t)
    (s : mcu) (h0 : P s) (n : Nat) :
    ∃ t, ticks DEBUG hw n s = some t ∧ P t := by
  induction n with
  | zero => exact ⟨s, rfl, h0⟩
  | succ k ih =>
    obtain ⟨u, hu, hP⟩ := ih
    obtain ⟨t, ht, hPt⟩ := hstep u hP
    exact ⟨t, by rw [ticks, hu, Option.some_bind, ht], hPt⟩

/-- Both duration constants of either build are positive. -/
theorem durations_pos (DEBUG : Bool) : 0 < OPERATION_TIME DEBUG ∧ 0 < SLEEP_TIME DEBUG := by
  cases DEBUG <;> decide

/-- The start-up part of `main` returns: three channels, lights on, threshold
`OPERATION_TIME`, counter untouched. -/
theorem main_startup_some (DEBUG : Bool) (hw : iodefs) (p0 p1 p2 : led_pin) (s : mcu) :
    ∃ t, main_startup DEBUG hw p0 p1 p2 s = some t ∧ t.led_pin_count = 3 ∧
      t.lights_enabled = true ∧ t.RTC_counter_treshold = OPERATION_TIME DEBUG ∧
      t.rounds = s.rounds ∧
      t.CTRLA = (hw.TCA_SPLIT_CLKSEL_DIV16_gc % 256 ||| hw.TCA_SPLIT_ENABLE_bm) % 256 ∧
      t.CTRLB = ((hw.TCA_SPLIT_HCMP0EN_bm ||| hw.TCA_SPLIT_HCMP1EN_bm |||
                    hw.TCA_SPLIT_HCMP2EN_bm) % 256 |||
                  (hw.TCA_SPLIT_HCMP0EN_bm ||| hw.TCA_SPLIT_HCMP1EN_bm |||
                    hw.TCA_SPLIT_HCMP2EN_bm)) % 256 := by
  obtain ⟨ps, hen, -⟩ := enable_lights_some DEBUG hw
    (init_pwm hw { ({ s with led_pin_count := 3 } : mcu) with pins := [p0, p1, p2] })
    (by simp [init_pwm])
  exact ⟨_, hen, rfl, rfl, rfl, rfl, rfl, rfl⟩

/-- One invocation of the interrupt routine keeps the scheduler invariant:
at least one channel, counter below the threshold, threshold matching the
mode. -/
theorem ISR_keeps_sched (DEBUG : Bool) (hw : iodefs) (s : mcu)
    (h : 0 < s.led_pin_count ∧
      (s.lights_enabled = true → s.RTC_counter_treshold = OPERATION_TIME DEBUG) ∧
      (s.lights_enabled = false → s.RTC_counter_treshold = SLEEP_TIME DEBUG)) :
    ∃ t, ISR_RTC_PIT_vect DEBUG hw s = some t ∧
      (0 < t.led_pin_count ∧
        (t.lights_enabled = true → t.RTC_counter_treshold = OPERATION_TIME DEBUG) ∧
        (t.lights_enabled = false → t.RTC_counter_treshold = SLEEP_TIME DEBUG)) ∧
      t.rounds < t.RTC_counter_treshold := by
  obtain ⟨hc, hon, hoff⟩ := h
  by_cases hfire : s.RTC_counter_treshold ≤ (s.rounds + 1) % 65536
  · rcases Bool.eq_false_or_eq_true s.lights_enabled with hl | hl
    · refine ⟨_, ISR_fire_active DEBUG hw s hfire hl, ⟨?_, ?_, ?_⟩, ?_⟩
      · simpa [disable_lights_eq] using hc
      · simp [disable_lights_eq]
      · simp [disable_lights_eq]
      · simpa [disable_lights_eq] using (durations_pos DEBUG).2
    · obtain ⟨ps, hen, -⟩ := enable_lights_some DEBUG hw { s with rounds := 0 } hc
      refine ⟨_, (ISR_fire_sleeping DEBUG hw s hfire hl).trans hen, ⟨hc, ?_, ?_⟩, ?_⟩
      · simp
      · simp
      · exact (durations_pos DEBUG).1
  · have hlt : (s.rounds + 1) % 65536 < s.RTC_counter_treshold := Nat.not_le.mp hfire
    exact ⟨_, ISR_below DEBUG hw s hlt, ⟨hc, hon, hoff⟩, hlt⟩

/-- C8: the start-up part of `main` returns a state, and from it any number of
ticks returns a state in which the counter is below the threshold and the
threshold is `OPERATION_TIME` with the lights on and `SLEEP_TIME` with the
lights off. -/
theorem scheduler_invariant (DEBUG : Bool) (hw : iodefs) (p0 p1 p2 : led_pin) (s : mcu)
    (hr : s.rounds = 0) (n : Nat) :
    ∃ s0 t, main_startup DEBUG hw p0 p1 p2 s = some s0 ∧ ticks DEBUG hw n s0 = some t ∧
      t.rounds < t.RTC_counter_treshold ∧
      (t.lights_enabled = true → t.RTC_counter_treshold = OPERATION_TIME DEBUG) ∧
      (t.lights_enabled = false → t.RTC_counter_treshold = SLEEP_TIME DEBUG) := by
  obtain ⟨s0, hs0, hc0, hl0, ht0, hr0, -⟩ := main_startup_some DEBUG hw p0 p1 p2 s
  have hstart : (0 < s0.led_pin_count ∧
      (s0.lights_enabled = true → s0.RTC_counter_treshold = OPERATION_TIME DEBUG) ∧
      (s0.lights_enabled = false → s0.RTC_counter_treshold = SLEEP_TIME DEBUG)) ∧
      s0.rounds < s0.RTC_counter_treshold := by
    refine ⟨⟨by omega, fun _ => ht0, fun h => ?_⟩, ?_⟩
    · rw [hl0] at h
      cases h
    · rw [hr0, hr, ht0]
      exact (durations_pos DEBUG).1
  obtain ⟨t, ht, ⟨-, hon, hoff⟩, hlt⟩ := ticks_induction DEBUG hw
    (fun u => (0 < u.led_pin_count ∧
      (u.lights_enabled = true → u.RTC_counter_treshold = OPERATION_TIME DEBUG) ∧
      (u.lights_enabled = false → u.RTC_counter_treshold = SLEEP_TIME DEBUG)) ∧
      u.rounds < u.RTC_counter_treshold)
    (fun u hu => ISR_keeps_sched DEBUG hw u hu.1) s0 hstart n
  exact ⟨s0, t, hs0, ht, hlt, hon, hoff⟩

/-- The invariant of C8 in the `DEBUG` build, 1000 ticks after reset. -/
theorem scheduler_invariant_witness :
    ∃ s0 t, main_startup true iotn814 ⟨0, pwm_state.SINKING⟩ ⟨0, pwm_state.SINKING⟩
        ⟨0, pwm_state.SINKING⟩ reset = some s0 ∧
      ticks true iotn814 1000 s0 = some t ∧ t.rounds < t.RTC_counter_treshold :=
  let ⟨s0, t, hs0, ht, hlt, _⟩ :=
    scheduler_invariant true iotn814 ⟨0, pwm_state.SINKING⟩ ⟨0, pwm_state.SINKING⟩
      ⟨0, pwm_state.SINKING⟩ reset rfl 1000
  ⟨s0, t, hs0, ht, hlt⟩

/-! ### Bits of the control registers -/

/-- A value that fits 8 bits has no bit set from position 8 on. -/
theorem testBit_high_of_fits8 (m i : Nat) (hm : m < 256) (hi : 8 ≤ i) :
    m.testBit i = false := by
  apply Nat.testBit_lt_two_pow
  calc m < 2 ^ 8 := hm
    _ ≤ 2 ^ i := Nat.pow_le_pow_right (by decide) hi

/-- Below position 16 the complement of C inverts every bit. -/
theorem testBit_bitnot (m i : Nat) (hi : i < 16) :
    (bitnot m).testBit i = !m.testBit i := by
  have h : Nat.testBit 65535 i = decide (i < 16) := Nat.testBit_two_pow_sub_one 16 i
  simp [bitnot, Nat.testBit_xor, h, hi]

/-- After `reg |= m` every 8-bit mask contained in `m` reads back set. -/
theorem gate_on (a m k : Nat) (hk : k < 256)
    (hsub : ∀ i, k.testBit i = true → m.testBit i = true) :
    ((a ||| m) % 256) &&& k = k := by
  apply Nat.eq_of_testBit_eq
  intro i
  have h256 : (256 : Nat) = 2 ^ 8 := by decide
  rw [h256, Nat.testBit_and, Nat.testBit_mod_two_pow, Nat.testBit_or]
  by_cases hi : i < 8
  · cases hki : k.testBit i
    · simp
    · simp [hi, hsub i hki]
  · simp [hi, testBit_high_of_fits8 k i hk (by omega)]

/-- After `reg &= n` every mask whose low bits are all cleared in `n` reads
back cleared. -/
theorem gate_off (a n k : Nat)
    (hoff : ∀ i, i < 8 → k.testBit i = true → n.testBit i = false) :
    ((a &&& n) % 256) &&& k = 0 := by
  apply Nat.eq_of_testBit_eq
  intro i
  have h256 : (256 : Nat) = 2 ^ 8 := by decide
  rw [h256, Nat.testBit_and, Nat.testBit_mod_two_pow, Nat.testBit_and, Nat.zero_testBit]
  by_cases hi : i < 8
  · cases hki : k.testBit i
    · simp
    · simp [hoff i hi hki]
  · simp [hi]

/-! ### Mode and output gating -/

/-- The stores of `enable_lights` to `CTRLA` and `CTRLB` set all four gating
bits. -/
theorem gated_on_of_or (hw : iodefs) (h8 : hw.fits8) (t : mcu) (a b : Nat)
    (hA : t.CTRLA = (a ||| hw.TCA_SPLIT_ENABLE_bm) % 256)
    (hB : t.CTRLB = (b ||| (hw.TCA_SPLIT_HCMP0EN_bm ||| hw.TCA_SPLIT_HCMP1EN_bm |||
                      hw.TCA_SPLIT_HCMP2EN_bm)) % 256) :
    gated_on hw t := by
  obtain ⟨he, h0, h1, h2, -, -⟩ := h8
  unfold gated_on
  rw [hA, hB]
  refine ⟨gate_on _ _ _ he fun _ h => h, gate_on _ _ _ h0 ?_, gate_on _ _ _ h1 ?_,
    gate_on _ _ _ h2 ?_⟩ <;>
  · intro i hi
    simp [Nat.testBit_or, hi]

/-- The stores of `disable_lights` to `CTRLB` and `CTRLA` clear all four gating
bits. -/
theorem gated_off_of_and (hw : iodefs) (t : mcu) (a b : Nat)
    (hA : t.CTRLA = (a &&& bitnot hw.TCA_SPLIT_ENABLE_bm) % 256)
    (hB : t.CTRLB = (b &&& (bitnot hw.TCA_SPLIT_HCMP0EN_bm &&& bitnot hw.TCA_SPLIT_HCMP1EN_bm &&&
                      bitnot hw.TCA_SPLIT_HCMP2EN_bm)) % 256) :
    gated_off hw t := by
  unfold gated_off
  rw [hA, hB]
  refine ⟨gate_off _ _ _ ?_, gate_off _ _ _ ?_, gate_off _ _ _ ?_, gate_off _ _ _ ?_⟩ <;>
  · intro i hi hk
    have h16 : i < 16 := by omega
    simp [Nat.testBit_and, testBit_bitnot _ _ h16, hk]

/-- One invocation of the interrupt routine keeps the gating in step with the
mode. -/
theorem ISR_keeps_gating (DEBUG : Bool) (hw : iodefs) (h8 : hw.fits8) (s : mcu)
    (h : 0 < s.led_pin_count ∧ (s.lights_enabled = true → gated_on hw s) ∧
      (s.lights_enabled = false → gated_off hw s)) :
    ∃ t, ISR_RTC_PIT_vect DEBUG hw s = some t ∧
      (0 < t.led_pin_count ∧ (t.lights_enabled = true → gated_on hw t) ∧
        (t.lights_enabled = false → gated_off hw t)) := by
  obtain ⟨hc, hon, hoff⟩ := h
  by_cases hfire : s.RTC_counter_treshold ≤ (s.rounds + 1) % 65536
  · rcases Bool.eq_false_or_eq_true s.lights_enabled with hl | hl
    · refine ⟨_, ISR_fire_active DEBUG hw s hfire hl, ?_, ?_, ?_⟩
      · simpa [disable_lights_eq] using hc
      · simp [disable_lights_eq]
      · intro _
        exact gated_off_of_and hw _ s.CTRLA s.CTRLB (by simp [disable_lights_eq])
          (by simp [disable_lights_eq])
    · obtain ⟨ps, hen, -⟩ := enable_lights_some DEBUG hw { s with rounds := 0 } hc
      refine ⟨_, (ISR_fire_sleeping DEBUG hw s hfire hl).trans hen, hc, ?_, ?_⟩
      · intro _
        exact gated_on_of_or hw h8 _ s.CTRLA s.CTRLB rfl rfl
      · simp
  · have hlt : (s.rounds + 1) % 65536 < s.RTC_counter_treshold := Nat.not_le.mp hfire
    exact ⟨_, ISR_below DEBUG hw s hlt, hc, hon, hoff⟩

/-- C9: with 8-bit masks, the start-up part of `main` (which runs `init_pwm`
and then `enable_lights`) returns a state, and from it any number of ticks
returns a state in which lights on means the timer enable bit and all three
compare enable bits are set, and lights off means all four are cleared. -/
theorem mode_gating_agree (DEBUG : Bool) (hw : iodefs) (h8 : hw.fits8)
    (p0 p1 p2 : led_pin) (s : mcu) (n : Nat) :
    ∃ s0 t, main_startup DEBUG hw p0 p1 p2 s = some s0 ∧ ticks DEBUG hw n s0 = some t ∧
      (t.lights_enabled = true → gated_on hw t) ∧
      (t.lights_enabled = false → gated_off hw t) := by
  obtain ⟨s0, hs0, hc0, hl0, -, -, hA, hB⟩ := main_startup_some DEBUG hw p0 p1 p2 s
  have hstart : 0 < s0.led_pin_count ∧ (s0.lights_enabled = true → gated_on hw s0) ∧
      (s0.lights_enabled = false → gated_off hw s0) := by
    refine ⟨by omega, fun _ => gated_on_of_or hw h8 s0 _ _ hA hB, fun h => ?_⟩
    rw [hl0] at h
    cases h
  obtain ⟨t, ht, -, hon, hoff⟩ := ticks_induction DEBUG hw
    (fun u => 0 < u.led_pin_count ∧ (u.lights_enabled = true → gated_on hw u) ∧
      (u.lights_enabled = false → gated_off hw u))
    (fun u hu => ISR_keeps_gating DEBUG hw h8 u hu) s0 hstart n
  exact ⟨s0, t, hs0, ht, hon, hoff⟩

/-- The agreement of C9 on the ATtiny814 in the `DEBUG` build, 17 ticks after
reset. -/
theorem mode_gating_agree_witness :
    iotn814.fits8 ∧
    ∃ s0 t, main_startup true iotn814 ⟨0, pwm_state.SINKING⟩ ⟨0, pwm_state.SINKING⟩
        ⟨0, pwm_state.SINKING⟩ reset = some s0 ∧
      ticks true iotn814 17 s0 = some t ∧
      (t.lights_enabled = true → gated_on iotn814 t) ∧
      (t.lights_enabled = false → gated_off iotn814 t) :=
  ⟨by decide,
   mode_gating_agree true iotn814 (by decide) ⟨0, pwm_state.SINKING⟩ ⟨0, pwm_state.SINKING⟩
     ⟨0, pwm_state.SINKING⟩ reset 17⟩

/-! ### What a tick writes -/

/-- C10 as stated fails: in the `DEBUG` build the tick that ends the sleep
period returns the freshly staggered state, so the amplitudes `5, 50, 70` of
the three channels become `33, 66, 99`. -/
theorem ISR_writes_duty_counterexample :
    ISR_RTC_PIT_vect true iotn814 sleeping_last_tick = some fresh_active ∧
    sleeping_last_tick.pins.map led_pin.duty = [5, 50, 70] ∧
    fresh_active.pins.map led_pin.duty = [33, 66, 99] := by
  decide

/-- A bit of an 8-bit register outside the mask survives `reg |= m`. -/
theorem frame_or (a m i : Nat) (hi : i < 8) (hm : m.testBit i = false) :
    ((a ||| m) % 256).testBit i = a.testBit i := by
  have h256 : (256 : Nat) = 2 ^ 8 := by decide
  rw [h256, Nat.testBit_mod_two_pow, Nat.testBit_or]
  simp [hi, hm]

/-- A bit of an 8-bit register that is set in `n` survives `reg &= n`. -/
theorem frame_and (a n i : Nat) (hi : i < 8) (hn : n.testBit i = true) :
    ((a &&& n) % 256).testBit i = a.testBit i := by
  have h256 : (256 : Nat) = 2 ^ 8 := by decide
  rw [h256, Nat.testBit_mod_two_pow, Nat.testBit_and]
  simp [hi, hn]

/-- C10, amended: one invocation of the interrupt routine on a state with at
least one channel returns, and it leaves the channel table (amplitudes and
directions) untouched unless it fires the transition from sleeping to active,
that is unless the lights are off and the incremented counter has reached the
threshold.  In that case `enable_lights` rewrites channel `i` to the amplitude
`(DUTY_MAX / led_pin_count) * (i + 1)` and the direction `RAISING`.  In every
case the channel count, `CTRLD`, `HPER` and the bits of `CTRLA` and `CTRLB`
outside the enable masks are as before. -/
theorem ISR_duty_frame (DEBUG : Bool) (hw : iodefs) (s : mcu) (hc : 0 < s.led_pin_count) :
    ∃ t, ISR_RTC_PIT_vect DEBUG hw s = some t ∧
      (¬ (s.lights_enabled = false ∧ s.RTC_counter_treshold ≤ (s.rounds + 1) % 65536) →
        t.pins = s.pins) ∧
      (s.lights_enabled = false → s.RTC_counter_treshold ≤ (s.rounds + 1) % 65536 →
        t.pins.length = s.pins.length ∧
        ∀ i, i < s.led_pin_count → i < s.pins.length →
          t.pins[i]? = some ⟨(DUTY_MAX / s.led_pin_count) * (i + 1), pwm_state.RAISING⟩) ∧
      t.led_pin_count = s.led_pin_count ∧ t.CTRLD = s.CTRLD ∧ t.HPER = s.HPER ∧
      (∀ i, i < 8 → hw.TCA_SPLIT_ENABLE_bm.testBit i = false →
        t.CTRLA.testBit i = s.CTRLA.testBit i) ∧
      (∀ i, i < 8 → hw.TCA_SPLIT_HCMP0EN_bm.testBit i = false →
        hw.TCA_SPLIT_HCMP1EN_bm.testBit i = false →
        hw.TCA_SPLIT_HCMP2EN_bm.testBit i = false →
        t.CTRLB.testBit i = s.CTRLB.testBit i) := by
  by_cases hfire : s.RTC_counter_treshold ≤ (s.rounds + 1) % 65536
  · rcases Bool.eq_false_or_eq_true s.lights_enabled with hl | hl
    · refine ⟨_, ISR_fire_active DEBUG hw s hfire hl, fun _ => ?_, fun h => ?_, ?_, ?_, ?_,
        fun i hi he => ?_, fun i hi h0 h1 h2 => ?_⟩
      · simp [disable_lights_eq]
      · rw [hl] at h
        cases h
      · simp [disable_lights_eq]
      · simp [disable_lights_eq]
      · simp [disable_lights_eq]
      · have h16 : i < 16 := by omega
        simp only [disable_lights_eq]
        exact frame_and _ _ _ hi (by simp [testBit_bitnot _ _ h16, he])
      · have h16 : i < 16 := by omega
        simp only [disable_lights_eq]
        exact frame_and _ _ _ hi
          (by simp [Nat.testBit_and, testBit_bitnot _ _ h16, h0, h1, h2])
    · obtain ⟨ps, hen, hlen, hlow, -⟩ :=
        enable_lights_some DEBUG hw { s with rounds := 0 } hc
      refine ⟨_, (ISR_fire_sleeping DEBUG hw s hfire hl).trans hen, fun h => ?_, fun _ _ => ?_,
        rfl, rfl, rfl, fun i hi he => ?_, fun i hi h0 h1 h2 => ?_⟩
      · exact absurd ⟨hl, hfire⟩ h
      · refine ⟨hlen, fun i hi hil => ?_⟩
        have := hlow i hi hil
        simp only at this
        rw [this, stagger_fits _ _ hi]
      · exact frame_or _ _ _ hi he
      · exact frame_or _ _ _ hi (by simp [Nat.testBit_or, h0, h1, h2])
  · have hlt : (s.rounds + 1) % 65536 < s.RTC_counter_treshold := Nat.not_le.mp hfire
    exact ⟨_, ISR_below DEBUG hw s hlt, fun _ => rfl, fun _ h => absurd h hfire, rfl, rfl, rfl,
      fun _ _ _ => rfl, fun _ _ _ _ _ => rfl⟩

/-- The amended C10 on two states of the `DEBUG` build: a tick in the middle of
the active period leaves the channel table alone, the tick that ends the sleep
period staggers channel 1 to 66. -/
theorem ISR_duty_frame_witness :
    (∃ t, ISR_RTC_PIT_vect true iotn814 fresh_active = some t ∧
      t.pins = fresh_active.pins) ∧
    (∃ t, ISR_RTC_PIT_vect true iotn814 sleeping_last_tick = some t ∧
      t.pins[1]? = some ⟨(DUTY_MAX / 3) * (1 + 1), pwm_state.RAISING⟩) :=
  ⟨let ⟨t, ht, hkeep, _⟩ := ISR_duty_frame true iotn814 fresh_active (by decide)
   ⟨t, ht, hkeep (by decide)⟩,
   let ⟨t, ht, _, hwake, _⟩ := ISR_duty_frame true iotn814 sleeping_last_tick (by decide)
   ⟨t, ht, (hwake rfl (by decide)).2 1 (by decide) (by decide)⟩⟩

/-! ### The foreground loop -/

/-- The `for` loop of `main` over the first `n` indices writes only the channel
table: the entries below `n` are stepped once, the others are as before. -/
theorem main_for_loop (s : mcu) (n : Nat) :
    ∃ ps : List led_pin,
      (List.range n).foldl main_for_body s = { s with pins := ps } ∧
      ps.length = s.pins.length ∧
      (∀ i, i < n → ps[i]? = (s.pins[i]?).map process_duty) ∧
      (∀ i, n ≤ i → ps[i]? = s.pins[i]?) := by
  induction n with
  | zero => exact ⟨s.pins, by simp, rfl, by simp, by simp⟩
  | succ k ih =>
    obtain ⟨ps, hfold, hlen, hlow, hhigh⟩ := ih
    refine ⟨ps.modify process_duty k, ?_, ?_, ?_, ?_⟩
    · rw [List.range_succ, List.foldl_append, hfold]
      simp [main_for_body]
    · simp [hlen]
    · intro i hi
      by_cases hik : i = k
      · subst hik
        rw [List.getElem?_modify_eq, hhigh i (Nat.le_refl i)]
        rfl
      · rw [List.getElem?_modify_ne _ _ (Ne.symm hik)]
        exact hlow i (by omega)
    · intro i hi
      rw [List.getElem?_modify_ne _ _ (by omega)]
      exact hhigh i (by omega)

/-- With the lights on and a table of `led_pin_count` channels, one iteration
of the foreground loop maps `process_duty` over the table. -/
theorem main_loop_body_on (s : mcu) (hlen : s.pins.length = s.led_pin_count)
    (hl : s.lights_enabled = true) :
    main_loop_body s = { s with pins := s.pins.map process_duty } := by
  obtain ⟨ps, hfold, hpl, hlow, -⟩ := main_for_loop s s.led_pin_count
  have hps : ps = s.pins.map process_duty := by
    apply List.ext_getElem?
    intro i
    by_cases hi : i < s.led_pin_count
    · rw [hlow i hi, List.getElem?_map]
    · rw [List.getElem?_eq_none (by omega), List.getElem?_eq_none (by simp; omega)]
  simp only [main_loop_body, hl, if_true, hfold, hps]

/-- With the lights off, one iteration of the foreground loop changes
nothing. -/
theorem main_loop_body_off (s : mcu) (hl : s.lights_enabled = false) :
    main_loop_body s = s := by
  simp [main_loop_body, hl]

/-- C12: for a state whose table has `led_pin_count` channels, one iteration of
the body of `while (1)` with the lights on replaces the table by the result of
stepping every channel in index order, which is `process_duty` applied to each
channel on its own: the new channel `i` is `process_duty` of the old channel
`i`, and nothing else changes.  With the lights off the iteration changes
nothing at all. -/
theorem main_loop_body_independent (s : mcu) (hlen : s.pins.length = s.led_pin_count) :
    (s.lights_enabled = true →
      main_loop_body s = (List.range s.led_pin_count).foldl main_for_body s ∧
      main_loop_body s = { s with pins := s.pins.map process_duty } ∧
      (main_loop_body s).led_pin_count = s.led_pin_count ∧
      (main_loop_body s).pins.length = s.led_pin_count ∧
      ∀ i : Nat, (main_loop_body s).pins[i]? = (s.pins[i]?).map process_duty) ∧
    (s.lights_enabled = false → main_loop_body s = s) := by
  refine ⟨fun hl => ?_, main_loop_body_off s⟩
  have hmap := main_loop_body_on s hlen hl
  refine ⟨by simp [main_loop_body, hl], hmap, ?_, ?_, ?_⟩
  · rw [hmap]
  · rw [hmap]
    simpa using hlen
  · intro i
    rw [hmap]
    simp [List.getElem?_map]

/-- The loop body of C12 on the freshly staggered table, and on the sleeping
state. -/
theorem main_loop_body_independent_witness :
    main_loop_body fresh_active =
      { fresh_active with pins := fresh_active.pins.map process_duty } ∧
    main_loop_body fresh_sleeping = fresh_sleeping :=
  ⟨((main_loop_body_independent fresh_active (by decide)).1 rfl).2.1,
   (main_loop_body_independent fresh_sleeping (by decide)).2 rfl⟩

/-! ### The long-run schedule -/

/-- The residue of `n + 1` is the residue of `n` plus one, or zero when that
reaches the modulus. -/
theorem succ_mod_cases (n T : Nat) (hT : 1 < T) :
    (n % T + 1 < T ∧ (n + 1) % T = n % T + 1) ∨ (n % T + 1 = T ∧ (n + 1) % T = 0) := by
  have hlt : n % T < T := Nat.mod_lt n (by omega)
  have h1 : 1 % T = 1 := Nat.mod_eq_of_lt hT
  rw [Nat.add_mod, h1]
  by_cases h : n % T + 1 < T
  · exact Or.inl ⟨h, Nat.mod_eq_of_lt h⟩
  · have he : n % T + 1 = T := by omega
    exact Or.inr ⟨he, by rw [he, Nat.mod_self]⟩

/-- From a state with the lights on, a zero counter and the threshold
`OPERATION_TIME`, the state after `n` ticks is given by the residue `r` of `n`
modulo `OPERATION_TIME + SLEEP_TIME`: lights on, counter `r` and threshold
`OPERATION_TIME` while `r < OPERATION_TIME`; lights off, counter
`r - OPERATION_TIME` and threshold `SLEEP_TIME` otherwise. -/
theorem ticks_phase (DEBUG : Bool) (hw : iodefs) (s0 : mcu) (hc : 0 < s0.led_pin_count)
    (hl : s0.lights_enabled = true) (hr : s0.rounds = 0)
    (ht : s0.RTC_counter_treshold = OPERATION_TIME DEBUG) (n : Nat) :
    ∃ t, ticks DEBUG hw n s0 = some t ∧ 0 < t.led_pin_count ∧
      ((n % (OPERATION_TIME DEBUG + SLEEP_TIME DEBUG) < OPERATION_TIME DEBUG ∧
          t.lights_enabled = true ∧
          t.rounds = n % (OPERATION_TIME DEBUG + SLEEP_TIME DEBUG) ∧
          t.RTC_counter_treshold = OPERATION_TIME DEBUG) ∨
        (OPERATION_TIME DEBUG ≤ n % (OPERATION_TIME DEBUG + SLEEP_TIME DEBUG) ∧
          t.lights_enabled = false ∧
          t.rounds = n % (OPERATION_TIME DEBUG + SLEEP_TIME DEBUG) - OPERATION_TIME DEBUG ∧
          t.RTC_counter_treshold = SLEEP_TIME DEBUG)) := by
  obtain ⟨hA, hS⟩ := durations_pos DEBUG
  have hA16 : OPERATION_TIME DEBUG < 65536 := by cases DEBUG <;> decide
  have hS16 : SLEEP_TIME DEBUG < 65536 := by cases DEBUG <;> decide
  generalize hAdef : OPERATION_TIME DEBUG = A at *
  generalize hSdef : SLEEP_TIME DEBUG = S at *
  induction n with
  | zero =>
    refine ⟨s0, rfl, hc, Or.inl ⟨?_, hl, ?_, ht⟩⟩
    · simpa using hA
    · simpa using hr
  | succ k ih =>
    obtain ⟨t, htk, htc, hphase⟩ := ih
    have hstep : ∀ u, ISR_RTC_PIT_vect DEBUG hw t = some u →
        ticks DEBUG hw (k + 1) s0 = some u := by
      intro u hu
      rw [ticks, htk, Option.some_bind, hu]
    rcases succ_mod_cases k (A + S) (by omega) with ⟨hlt, hmod⟩ | ⟨heq, hmod⟩
    · rcases hphase with ⟨hrA, htl, htr, htt⟩ | ⟨hrA, htl, htr, htt⟩
      · by_cases hlast : k % (A + S) + 1 < A
        · have hb : (t.rounds + 1) % 65536 < t.RTC_counter_treshold := by
            rw [htr, htt, Nat.mod_eq_of_lt (by omega)]
            exact hlast
          refine ⟨_, hstep _ (ISR_below DEBUG hw t hb), htc, Or.inl ⟨?_, htl, ?_, htt⟩⟩
          · omega
          · simp only [htr, hmod]
            exact Nat.mod_eq_of_lt (by omega)
        · have hf : t.RTC_counter_treshold ≤ (t.rounds + 1) % 65536 := by
            rw [htr, htt, Nat.mod_eq_of_lt (by omega)]
            omega
          refine ⟨_, hstep _ (ISR_fire_active DEBUG hw t hf htl), ?_, Or.inr ⟨?_, ?_, ?_, ?_⟩⟩
          · simpa [disable_lights_eq] using htc
          · omega
          · simp [disable_lights_eq]
          · simp only [disable_lights_eq]
            omega
          · simp [disable_lights_eq, hSdef]
      · have hb : (t.rounds + 1) % 65536 < t.RTC_counter_treshold := by
          rw [htr, htt, Nat.mod_eq_of_lt (by omega)]
          omega
        refine ⟨_, hstep _ (ISR_below DEBUG hw t hb), htc, Or.inr ⟨?_, htl, ?_, htt⟩⟩
        · omega
        · simp only [htr, hmod]
          rw [Nat.mod_eq_of_lt (by omega)]
          omega
    · rcases hphase with ⟨hrA, htl, htr, htt⟩ | ⟨hrA, htl, htr, htt⟩
      · omega
      · have hf : t.RTC_counter_treshold ≤ (t.rounds + 1) % 65536 := by
          rw [htr, htt, Nat.mod_eq_of_lt (by omega)]
          omega
        obtain ⟨ps, hen, -⟩ := enable_lights_some DEBUG hw { t with rounds := 0 } htc
        refine ⟨_, hstep _ ((ISR_fire_sleeping DEBUG hw t hf htl).trans hen), htc,
          Or.inl ⟨?_, rfl, ?_, ?_⟩⟩
        · omega
        · simp only [hmod]
        · exact hAdef

/-- C11: the start-up part of `main` returns a state `s0`, and with
`A = OPERATION_TIME` and `S = SLEEP_TIME` of the build, for every `n` the state
after `n` ticks from `s0` has the lights on exactly when `n % (A + S) < A`.
The triple of mode, counter and threshold after `n + (A + S)` ticks is the one
after `n` ticks, and after no `p` with `0 < p < A + S` ticks is the triple of
`s0` back, so the period is exactly `A + S`. -/
theorem long_run_schedule (DEBUG : Bool) (hw : iodefs) (p0 p1 p2 : led_pin) (s : mcu)
    (hr : s.rounds = 0) (n : Nat) :
    ∃ s0 t u, main_startup DEBUG hw p0 p1 p2 s = some s0 ∧
      ticks DEBUG hw n s0 = some t ∧
      ticks DEBUG hw (n + (OPERATION_TIME DEBUG + SLEEP_TIME DEBUG)) s0 = some u ∧
      (t.lights_enabled = true ↔
        n % (OPERATION_TIME DEBUG + SLEEP_TIME DEBUG) < OPERATION_TIME DEBUG) ∧
      (u.lights_enabled = t.lights_enabled ∧ u.rounds = t.rounds ∧
        u.RTC_counter_treshold = t.RTC_counter_treshold) ∧
      (∀ p, 0 < p → p < OPERATION_TIME DEBUG + SLEEP_TIME DEBUG →
        ∃ v, ticks DEBUG hw p s0 = some v ∧
          ¬ (v.lights_enabled = s0.lights_enabled ∧ v.rounds = s0.rounds ∧
            v.RTC_counter_treshold = s0.RTC_counter_treshold)) := by
  obtain ⟨s0, hs0, hc0, hl0, ht0, hr0, -⟩ := main_startup_some DEBUG hw p0 p1 p2 s
  have hr00 : s0.rounds = 0 := hr0.trans hr
  have hphase := ticks_phase DEBUG hw s0 (by omega) hl0 hr00 ht0
  obtain ⟨t, ht, -, htp⟩ := hphase n
  obtain ⟨u, hu, -, hup⟩ := hphase (n + (OPERATION_TIME DEBUG + SLEEP_TIME DEBUG))
  rw [Nat.add_mod_right] at hup
  refine ⟨s0, t, u, hs0, ht, hu, ?_, ?_, ?_⟩
  · rcases htp with ⟨h, hl, -, -⟩ | ⟨h, hl, -, -⟩
    · exact ⟨fun _ => h, fun _ => hl⟩
    · constructor
      · intro hon
        rw [hl] at hon
        cases hon
      · intro hlt
        omega
  · rcases htp with ⟨h, hl, hrd, hth⟩ | ⟨h, hl, hrd, hth⟩ <;>
      rcases hup with ⟨h', hl', hrd', hth'⟩ | ⟨h', hl', hrd', hth'⟩
    · exact ⟨hl'.trans hl.symm, hrd'.trans hrd.symm, hth'.trans hth.symm⟩
    · omega
    · omega
    · exact ⟨hl'.trans hl.symm, hrd'.trans hrd.symm, hth'.trans hth.symm⟩
  · intro p hp0 hpT
    obtain ⟨v, hv, -, hvp⟩ := hphase p
    rw [Nat.mod_eq_of_lt hpT] at hvp
    refine ⟨v, hv, ?_⟩
    rintro ⟨hvl, hvr, -⟩
    rcases hvp with ⟨-, -, hrd, -⟩ | ⟨-, hl, -, -⟩
    · rw [hvr, hr00] at hrd
      omega
    · rw [hvl, hl0] at hl
      cases hl

/-- The schedule of C11 in the `DEBUG` build: 37 ticks after reset the lights
are off, since `37 % 20 = 17` is not below 15. -/
theorem long_run_schedule_witness :
    ∃ s0 t, main_startup true iotn814 ⟨0, pwm_state.SINKING⟩ ⟨0, pwm_state.SINKING⟩
        ⟨0, pwm_state.SINKING⟩ reset = some s0 ∧
      ticks true iotn814 37 s0 = some t ∧ ¬ t.lights_enabled = true :=
  let ⟨s0, t, _, hs0, ht, _, hiff, _⟩ :=
    long_run_schedule true iotn814 ⟨0, pwm_state.SINKING⟩ ⟨0, pwm_state.SINKING⟩
      ⟨0, pwm_state.SINKING⟩ reset rfl 37
  ⟨s0, t, hs0, ht, fun h => absurd (hiff.mp h) (by decide)⟩

/-! ### Interleavings of ticks and loop iterations -/

/-- A property that holds of a state, that every invocation of the interrupt
routine returns with and that every iteration of the foreground loop keeps,
holds after any sequence of events. -/
theorem run_induction (DEBUG : Bool) (hw : iodefs) (P : mcu → Prop)
    (htick : ∀ s, P s → ∃ t, ISR_RTC_PIT_vect DEBUG hw s = some t ∧ P t)
    (hloop : ∀ s, P s → P (main_loop_body s))
    (es : List event) (s : mcu) (h0 : P s) :
    ∃ t, run DEBUG hw es s = some t ∧ P t := by
  induction es generalizing s with
  | nil => exact ⟨s, rfl, h0⟩
  | cons e es ih =>
    cases e with
    | tick =>
      obtain ⟨u, hu, hP⟩ := htick s h0
      obtain ⟨t, ht, hPt⟩ := ih u hP
      exact ⟨t, by rw [run, hu, Option.some_bind, ht], hPt⟩
    | loop =>
      obtain ⟨t, ht, hPt⟩ := ih (main_loop_body s) (hloop s h0)
      exact ⟨t, by rw [run, ht], hPt⟩

/-- In a table of three channels written by the loop of `enable_lights`, the
amplitudes are 33, 66 and 99. -/
theorem stagger_three (ps : List led_pin) (hlen : ps.length = 3)
    (h : ∀ i, i < 3 →
      ps[i]? = some ⟨((DUTY_MAX / 3) % 256 * (i + 1)) % 256, pwm_state.RAISING⟩) :
    ps = [⟨33, pwm_state.RAISING⟩, ⟨66, pwm_state.RAISING⟩, ⟨99, pwm_state.RAISING⟩] := by
  apply List.ext_getElem?
  intro i
  by_cases hi : i < 3
  · have := h i hi
    interval_cases i <;> simpa [DUTY_MAX, PERIOD] using this
  · rw [List.getElem?_eq_none (by omega), List.getElem?_eq_none (by simp; omega)]

/-- Every channel of the table is inside `[DUTY_MIN, DUTY_MAX]`, and there are
three of them: this holds of the staggered table. -/
theorem stagger_three_bounded (p : led_pin)
    (hp : p ∈ [(⟨33, pwm_state.RAISING⟩ : led_pin), ⟨66, pwm_state.RAISING⟩,
      ⟨99, pwm_state.RAISING⟩]) :
    DUTY_MIN ≤ p.duty ∧ p.duty ≤ DUTY_MAX := by
  simp only [List.mem_cons, List.mem_singleton, List.not_mem_nil, or_false] at hp
  rcases hp with rfl | rfl | rfl <;> decide

/-- One invocation of the interrupt routine keeps a table of three channels
inside `[DUTY_MIN, DUTY_MAX]`. -/
theorem ISR_keeps_bounds (DEBUG : Bool) (hw : iodefs) (s : mcu)
    (h : s.led_pin_count = 3 ∧ s.pins.length = 3 ∧
      ∀ p ∈ s.pins, DUTY_MIN ≤ p.duty ∧ p.duty ≤ DUTY_MAX) :
    ∃ t, ISR_RTC_PIT_vect DEBUG hw s = some t ∧
      (t.led_pin_count = 3 ∧ t.pins.length = 3 ∧
        ∀ p ∈ t.pins, DUTY_MIN ≤ p.duty ∧ p.duty ≤ DUTY_MAX) := by
  obtain ⟨hc, hlen, hb⟩ := h
  by_cases hfire : s.RTC_counter_treshold ≤ (s.rounds + 1) % 65536
  · rcases Bool.eq_false_or_eq_true s.lights_enabled with hl | hl
    · refine ⟨_, ISR_fire_active DEBUG hw s hfire hl, ?_, ?_, ?_⟩
      · simpa [disable_lights_eq] using hc
      · simpa [disable_lights_eq] using hlen
      · simpa [disable_lights_eq] using hb
    · obtain ⟨ps, hen, hpl, hlow, -⟩ :=
        enable_lights_some DEBUG hw { s with rounds := 0 } (by simp [hc])
      have hps := stagger_three ps (hpl.trans hlen) (fun i hi => by
        have := hlow i (by simp [hc, hi]) (by simp [hlen, hi])
        simpa [hc] using this)
      refine ⟨_, (ISR_fire_sleeping DEBUG hw s hfire hl).trans hen, hc, hpl.trans hlen, ?_⟩
      intro p hp
      exact stagger_three_bounded p (by simpa [hps] using hp)
  · have hlt : (s.rounds + 1) % 65536 < s.RTC_counter_treshold := Nat.not_le.mp hfire
    exact ⟨_, ISR_below DEBUG hw s hlt, hc, hlen, hb⟩

/-- One iteration of the foreground loop keeps a table of three channels
inside `[DUTY_MIN, DUTY_MAX]`. -/
theorem main_loop_body_keeps_bounds (s : mcu)
    (h : s.led_pin_count = 3 ∧ s.pins.length = 3 ∧
      ∀ p ∈ s.pins, DUTY_MIN ≤ p.duty ∧ p.duty ≤ DUTY_MAX) :
    (main_loop_body s).led_pin_count = 3 ∧ (main_loop_body s).pins.length = 3 ∧
      ∀ p ∈ (main_loop_body s).pins, DUTY_MIN ≤ p.duty ∧ p.duty ≤ DUTY_MAX := by
  obtain ⟨hc, hlen, hb⟩ := h
  rcases Bool.eq_false_or_eq_true s.lights_enabled with hl | hl
  · rw [main_loop_body_on s (hlen.trans hc.symm) hl]
    refine ⟨hc, by simpa using hlen, ?_⟩
    intro p hp
    simp only [List.mem_map] at hp
    obtain ⟨q, hq, rfl⟩ := hp
    exact process_duty_keeps_bounds q (hb q hq).1 (hb q hq).2
  · rw [main_loop_body_off s hl]
    exact ⟨hc, hlen, hb⟩

/-- The start-up part of `main` returns a table of three channels staggered to
33, 66 and 99. -/
theorem main_startup_pins (DEBUG : Bool) (hw : iodefs) (p0 p1 p2 : led_pin) (s : mcu) :
    ∃ t, main_startup DEBUG hw p0 p1 p2 s = some t ∧ t.led_pin_count = 3 ∧
      t.lights_enabled = true ∧
      t.pins = [⟨33, pwm_state.RAISING⟩, ⟨66, pwm_state.RAISING⟩, ⟨99, pwm_state.RAISING⟩] := by
  obtain ⟨ps, hen, hpl, hlow, -⟩ := enable_lights_some DEBUG hw
    (init_pwm hw { ({ s with led_pin_count := 3 } : mcu) with pins := [p0, p1, p2] })
    (by simp [init_pwm])
  refine ⟨_, hen, rfl, rfl, ?_⟩
  exact stagger_three ps (by simpa [init_pwm] using hpl) (fun i hi => by
    have := hlow i (by simpa [init_pwm] using hi) (by simpa [init_pwm] using hi)
    simpa [init_pwm] using this)

/-- C13: the start-up part of `main` returns a state, and from it every
sequence of atomic ticks and foreground loop iterations returns a state with
three channels whose amplitudes are all inside `[DUTY_MIN, DUTY_MAX]`, hence
above zero, whatever the mode. -/
theorem channels_never_extinguish (DEBUG : Bool) (hw : iodefs) (p0 p1 p2 : led_pin)
    (s : mcu) (es : List event) :
    ∃ s0 t, main_startup DEBUG hw p0 p1 p2 s = some s0 ∧ run DEBUG hw es s0 = some t ∧
      t.pins.length = 3 ∧
      ∀ p ∈ t.pins, DUTY_MIN ≤ p.duty ∧ p.duty ≤ DUTY_MAX ∧ 0 < p.duty := by
  obtain ⟨s0, hs0, hc0, -, hp0⟩ := main_startup_pins DEBUG hw p0 p1 p2 s
  have hstart : s0.led_pin_count = 3 ∧ s0.pins.length = 3 ∧
      ∀ p ∈ s0.pins, DUTY_MIN ≤ p.duty ∧ p.duty ≤ DUTY_MAX := by
    refine ⟨hc0, by simp [hp0], fun p hp => ?_⟩
    exact stagger_three_bounded p (by simpa [hp0] using hp)
  obtain ⟨t, ht, -, hlen, hb⟩ := run_induction DEBUG hw
    (fun u => u.led_pin_count = 3 ∧ u.pins.length = 3 ∧
      ∀ p ∈ u.pins, DUTY_MIN ≤ p.duty ∧ p.duty ≤ DUTY_MAX)
    (ISR_keeps_bounds DEBUG hw) main_loop_body_keeps_bounds es s0 hstart
  refine ⟨s0, t, hs0, ht, hlen, fun p hp => ⟨(hb p hp).1, (hb p hp).2, ?_⟩⟩
  have := (hb p hp).1
  simp only [DUTY_MIN] at this
  omega

/-- The bound of C13 in the `DEBUG` build after a loop iteration, a tick and
another loop iteration from reset. -/
theorem channels_never_extinguish_witness :
    ∃ s0 t, main_startup true iotn814 ⟨0, pwm_state.SINKING⟩ ⟨0, pwm_state.SINKING⟩
        ⟨0, pwm_state.SINKING⟩ reset = some s0 ∧
      run true iotn814 [event.loop, event.tick, event.loop] s0 = some t ∧
      ∀ p ∈ t.pins, 0 < p.duty :=
  let ⟨s0, t, hs0, ht, _, hb⟩ :=
    channels_never_extinguish true iotn814 ⟨0, pwm_state.SINKING⟩ ⟨0, pwm_state.SINKING⟩
      ⟨0, pwm_state.SINKING⟩ reset [event.loop, event.tick, event.loop]
  ⟨s0, t, hs0, ht, fun p hp => (hb p hp).2.2⟩

/-! ### Width of the tick counter -/

/-- Both duration constants of either build are at most 64800. -/
theorem durations_le (DEBUG : Bool) :
    OPERATION_TIME DEBUG ≤ 64800 ∧ SLEEP_TIME DEBUG ≤ 64800 := by
  cases DEBUG <;> decide

/-- C14: the duration constants of each build (15 and 5, 21600 and 64800) are
below `2^16` and are stored in the 16-bit threshold unchanged by
`enable_lights` (at start-up) and `disable_lights`.  In every state reached
from start-up by ticks the counter is below 65535, so that the 16-bit
`rounds++` of the next tick is the plain successor. -/
theorem tick_counter_no_overflow (DEBUG : Bool) (hw : iodefs) (p0 p1 p2 : led_pin) (s : mcu)
    (hr : s.rounds = 0) (n : Nat) :
    (OPERATION_TIME true = 15 ∧ SLEEP_TIME true = 5 ∧
      OPERATION_TIME false = 21600 ∧ SLEEP_TIME false = 64800) ∧
    (OPERATION_TIME DEBUG < 65536 ∧ SLEEP_TIME DEBUG < 65536) ∧
    ∃ s0 t, main_startup DEBUG hw p0 p1 p2 s = some s0 ∧
      s0.RTC_counter_treshold = OPERATION_TIME DEBUG ∧
      ticks DEBUG hw n s0 = some t ∧
      (disable_lights DEBUG hw t).RTC_counter_treshold = SLEEP_TIME DEBUG ∧
      t.rounds < 65535 ∧ (t.rounds + 1) % 65536 = t.rounds + 1 := by
  obtain ⟨hA, hS⟩ := durations_le DEBUG
  refine ⟨by decide, ⟨by omega, by omega⟩, ?_⟩
  obtain ⟨s0, hs0, hc0, hl0, ht0, hr0, -⟩ := main_startup_some DEBUG hw p0 p1 p2 s
  have hstart : (0 < s0.led_pin_count ∧
      (s0.lights_enabled = true → s0.RTC_counter_treshold = OPERATION_TIME DEBUG) ∧
      (s0.lights_enabled = false → s0.RTC_counter_treshold = SLEEP_TIME DEBUG)) ∧
      s0.rounds < s0.RTC_counter_treshold := by
    refine ⟨⟨by omega, fun _ => ht0, fun h => ?_⟩, ?_⟩
    · rw [hl0] at h
      cases h
    · rw [hr0, hr, ht0]
      exact (durations_pos DEBUG).1
  obtain ⟨t, ht, ⟨-, hon, hoff⟩, hlt⟩ := ticks_induction DEBUG hw
    (fun u => (0 < u.led_pin_count ∧
      (u.lights_enabled = true → u.RTC_counter_treshold = OPERATION_TIME DEBUG) ∧
      (u.lights_enabled = false → u.RTC_counter_treshold = SLEEP_TIME DEBUG)) ∧
      u.rounds < u.RTC_counter_treshold)
    (fun u hu => ISR_keeps_sched DEBUG hw u hu.1) s0 hstart n
  have hthr : t.RTC_counter_treshold ≤ 64800 := by
    rcases Bool.eq_false_or_eq_true t.lights_enabled with hl | hl
    · rw [hon hl]
      exact hA
    · rw [hoff hl]
      exact hS
  refine ⟨s0, t, hs0, ht0, ht, by simp [disable_lights_eq], by omega, ?_⟩
  exact Nat.mod_eq_of_lt (by omega)

/-- The bound of C14 in the production build, 100000 ticks after reset. -/
theorem tick_counter_no_overflow_witness :
    ∃ s0 t, main_startup false iotn814 ⟨0, pwm_state.SINKING⟩ ⟨0, pwm_state.SINKING⟩
        ⟨0, pwm_state.SINKING⟩ reset = some s0 ∧
      ticks false iotn814 100000 s0 = some t ∧ t.rounds < 65535 :=
  let ⟨_, _, s0, t, hs0, _, ht, _, hlt, _⟩ :=
    tick_counter_no_overflow false iotn814 ⟨0, pwm_state.SINKING⟩ ⟨0, pwm_state.SINKING⟩
      ⟨0, pwm_state.SINKING⟩ reset rfl 100000
  ⟨s0, t, hs0, ht, hlt⟩

/-- C15 as stated fails: with the counter at 65535 and the threshold at 15 in
the `DEBUG` build, the tick wraps the counter to 0 and fires no transition;
the lights stay on and the threshold stays 15. -/
theorem ISR_wraps_counterexample :
    ISR_RTC_PIT_vect true iotn814 { fresh_active with rounds := 65535 } =
      some { fresh_active with rounds := 0 } ∧
    ({ fresh_active with rounds := 0 } : mcu).lights_enabled = fresh_active.lights_enabled ∧
    fresh_active.RTC_counter_treshold = 15 := by
  decide

/-- C15, amended: in every state whose counter holds 65535 and whose threshold
is at least 1, one invocation of the interrupt routine wraps the counter to 0
and fires no transition: it returns the same state with `rounds = 0`, mode and
threshold as before. -/
theorem ISR_wraps_at_max (DEBUG : Bool) (hw : iodefs) (s : mcu)
    (hmax : s.rounds = 65535) (hthr : 1 ≤ s.RTC_counter_treshold) :
    ISR_RTC_PIT_vect DEBUG hw s = some { s with rounds := 0 } ∧
    ∀ t, ISR_RTC_PIT_vect DEBUG hw s = some t →
      t.rounds = 0 ∧ t.lights_enabled = s.lights_enabled ∧
      t.RTC_counter_treshold = s.RTC_counter_treshold := by
  have hwrap : (s.rounds + 1) % 65536 = 0 := by rw [hmax]
  have hisr : ISR_RTC_PIT_vect DEBUG hw s = some { s with rounds := 0 } := by
    rw [ISR_below DEBUG hw s (by omega), hwrap]
  refine ⟨hisr, fun t ht => ?_⟩
  rw [hisr] at ht
  cases ht
  exact ⟨rfl, rfl, rfl⟩

/-- The wrap of the amended C15 in the sleeping state of the `DEBUG` build: the
lights stay off. -/
theorem ISR_wraps_at_max_witness :
    ISR_RTC_PIT_vect true iotn814 { fresh_sleeping with rounds := 65535 } =
      some { fresh_sleeping with rounds := 0 } :=
  (ISR_wraps_at_max true iotn814 { fresh_sleeping with rounds := 65535 } rfl (by decide)).1

/-! ### Width of the duty register -/

/-- C16: for every 8-bit amplitude and either direction, `process_duty` agrees
with its reading over the unbounded integers, in amplitude and in direction.
Whenever it changes the amplitude, it either incremented from a value below
`DUTY_MAX`, ending at most at `DUTY_MAX`, or decremented from a value above
`DUTY_MIN`, ending at least at `DUTY_MIN`; neither wraps. -/
theorem process_duty_no_wrap (pin : led_pin) (h8 : pin.duty < 256) :
    ((process_duty pin).duty : Int) = (process_duty_unbounded pin.duty pin.state).1 ∧
    (process_duty pin).state = (process_duty_unbounded pin.duty pin.state).2 ∧
    ((process_duty pin).duty ≠ pin.duty →
      (pin.state = pwm_state.RAISING ∧ pin.duty < DUTY_MAX ∧
        (process_duty pin).duty = pin.duty + 1 ∧ (process_duty pin).duty ≤ DUTY_MAX) ∨
      (pin.state = pwm_state.SINKING ∧ DUTY_MIN < pin.duty ∧
        (process_duty pin).duty + 1 = pin.duty ∧ DUTY_MIN ≤ (process_duty pin).duty)) := by
  obtain ⟨d, st⟩ := pin
  simp only at h8
  cases st <;>
    simp only [process_duty, process_duty_unbounded, DUTY_MIN, DUTY_MAX, PERIOD] <;>
    refine ⟨?_, ?_, ?_⟩ <;> split_ifs <;> simp_all <;> omega

/-- The agreement of C16 at the amplitudes 99 and 6, one step inside the
bounds. -/
theorem process_duty_no_wrap_witness :
    ((process_duty ⟨99, pwm_state.RAISING⟩).duty : Int) =
      (process_duty_unbounded 99 pwm_state.RAISING).1 ∧
    ((process_duty ⟨6, pwm_state.SINKING⟩).duty : Int) =
      (process_duty_unbounded 6 pwm_state.SINKING).1 :=
  ⟨(process_duty_no_wrap ⟨99, pwm_state.RAISING⟩ (by decide)).1,
   (process_duty_no_wrap ⟨6, pwm_state.SINKING⟩ (by decide)).1⟩

/-! ### What `disable_lights` writes -/

/-- C17: `disable_lights` leaves the channel table (amplitudes and
directions), the channel count, the counter, `CTRLD` and `HPER` as they were.
Of the 8 bits of `CTRLA` every bit outside the timer enable mask is unchanged,
and of the 8 bits of `CTRLB` every bit outside the three compare enable masks
is unchanged.  In particular a field of `CTRLA` given by an 8-bit mask
disjoint from the enable mask, such as the clock select, reads the same
afterwards. -/
theorem disable_lights_frame (DEBUG : Bool) (hw : iodefs) (s : mcu) :
    (disable_lights DEBUG hw s).pins = s.pins ∧
    (disable_lights DEBUG hw s).led_pin_count = s.led_pin_count ∧
    (disable_lights DEBUG hw s).rounds = s.rounds ∧
    (disable_lights DEBUG hw s).CTRLD = s.CTRLD ∧
    (disable_lights DEBUG hw s).HPER = s.HPER ∧
    (∀ i, i < 8 → hw.TCA_SPLIT_ENABLE_bm.testBit i = false →
      (disable_lights DEBUG hw s).CTRLA.testBit i = s.CTRLA.testBit i) ∧
    (∀ i, i < 8 → hw.TCA_SPLIT_HCMP0EN_bm.testBit i = false →
      hw.TCA_SPLIT_HCMP1EN_bm.testBit i = false →
      hw.TCA_SPLIT_HCMP2EN_bm.testBit i = false →
      (disable_lights DEBUG hw s).CTRLB.testBit i = s.CTRLB.testBit i) ∧
    (∀ m, m < 256 → m &&& hw.TCA_SPLIT_ENABLE_bm = 0 →
      (disable_lights DEBUG hw s).CTRLA &&& m = s.CTRLA &&& m) := by
  refine ⟨by simp [disable_lights_eq], by simp [disable_lights_eq], by simp [disable_lights_eq],
    by simp [disable_lights_eq], by simp [disable_lights_eq], ?_, ?_, ?_⟩
  · intro i hi he
    have h16 : i < 16 := by omega
    simp only [disable_lights_eq]
    exact frame_and _ _ _ hi (by simp [testBit_bitnot _ _ h16, he])
  · intro i hi h0 h1 h2
    have h16 : i < 16 := by omega
    simp only [disable_lights_eq]
    exact frame_and _ _ _ hi (by simp [Nat.testBit_and, testBit_bitnot _ _ h16, h0, h1, h2])
  · intro m hm hdis
    simp only [disable_lights_eq]
    apply Nat.eq_of_testBit_eq
    intro i
    rw [Nat.testBit_and, Nat.testBit_and]
    by_cases hi : i < 8
    · cases hmi : m.testBit i
      · simp
      · have hbit := congrArg (fun x => x.testBit i) hdis
        simp only [Nat.testBit_and, hmi, Bool.true_and, Nat.zero_testBit] at hbit
        have h16 : i < 16 := by omega
        rw [frame_and _ _ _ hi (by simp [testBit_bitnot _ _ h16, hbit])]
    · simp [testBit_high_of_fits8 m i hm (by omega)]

/-- The frame of C17 on the ATtiny814: the clock select `DIV16` that `init_pwm`
wrote to `CTRLA` is still there after `disable_lights`. -/
theorem disable_lights_frame_witness :
    (disable_lights true iotn814 fresh_active).CTRLA &&& iotn814.TCA_SPLIT_CLKSEL_DIV16_gc =
      fresh_active.CTRLA &&& iotn814.TCA_SPLIT_CLKSEL_DIV16_gc :=
  (disable_lights_frame true iotn814 fresh_active).2.2.2.2.2.2.2
    iotn814.TCA_SPLIT_CLKSEL_DIV16_gc (by decide) (by decide)

/-! ### Staggered amplitudes and the bounds -/

/-- C18: for a table of `led_pin_count >= 1` channels, `enable_lights` returns
a state in which every channel starts inside `[DUTY_MIN, DUTY_MAX]` if and
only if there are at most 20 channels; with 21 or more, channel 0 starts below
`DUTY_MIN`. -/
theorem stagger_bounded_iff (DEBUG : Bool) (hw : iodefs) (s : mcu)
    (hc : 1 ≤ s.led_pin_count) (hlen : s.pins.length = s.led_pin_count) :
    ∃ t, enable_lights DEBUG hw s = some t ∧
      ((∀ i, i < s.led_pin_count →
          ∃ p, t.pins[i]? = some p ∧ DUTY_MIN ≤ p.duty ∧ p.duty ≤ DUTY_MAX) ↔
        s.led_pin_count ≤ 20) ∧
      (21 ≤ s.led_pin_count → ∃ p, t.pins[0]? = some p ∧ p.duty < DUTY_MIN) := by
  obtain ⟨ps, hen, -, hlow, -⟩ := enable_lights_some DEBUG hw s hc
  have hstag : ∀ i, i < s.led_pin_count →
      ps[i]? = some ⟨(DUTY_MAX / s.led_pin_count) * (i + 1), pwm_state.RAISING⟩ := by
    intro i hi
    rw [hlow i hi (by omega), stagger_fits _ _ hi]
  have hseg : 5 ≤ DUTY_MAX / s.led_pin_count ↔ s.led_pin_count ≤ 20 := by
    rw [Nat.le_div_iff_mul_le (by omega)]
    simp only [DUTY_MAX, PERIOD]
    omega
  refine ⟨_, hen, ⟨fun h => ?_, fun h i hi => ?_⟩, fun h => ?_⟩
  · obtain ⟨p, hp, hlo, -⟩ := h 0 (by omega)
    have h0 := hstag 0 (by omega)
    simp only at hp
    rw [h0] at hp
    cases hp
    simp only [DUTY_MIN, Nat.zero_add, Nat.mul_one] at hlo
    exact hseg.mp hlo
  · refine ⟨_, hstag i hi, ?_, ?_⟩
    · have h5 := hseg.mpr h
      have : DUTY_MAX / s.led_pin_count * 1 ≤ DUTY_MAX / s.led_pin_count * (i + 1) :=
        Nat.mul_le_mul_left _ (by omega)
      simp only [DUTY_MIN]
      omega
    · have h2 : DUTY_MAX / s.led_pin_count * s.led_pin_count ≤ DUTY_MAX :=
        Nat.div_mul_le_self _ _
      have h3 : DUTY_MAX / s.led_pin_count * (i + 1) ≤
          DUTY_MAX / s.led_pin_count * s.led_pin_count := Nat.mul_le_mul_left _ (by omega)
      exact Nat.le_trans h3 h2
  · refine ⟨_, hstag 0 (by omega), ?_⟩
    have : ¬ 5 ≤ DUTY_MAX / s.led_pin_count := fun h5 => by
      have := hseg.mp h5
      omega
    simp only [DUTY_MIN, Nat.zero_add, Nat.mul_one]
    omega

/-- The equivalence of C18 on the three channels of the reference table: they
all start inside the bounds. -/
theorem stagger_bounded_iff_witness :
    ∃ t, enable_lights true iotn814 fresh_sleeping = some t ∧
      ∀ i, i < 3 → ∃ p, t.pins[i]? = some p ∧ DUTY_MIN ≤ p.duty ∧ p.duty ≤ DUTY_MAX :=
  let ⟨t, ht, hiff, _⟩ :=
    stagger_bounded_iff true iotn814 fresh_sleeping (by decide) (by decide)
  ⟨t, ht, hiff.mpr (by decide)⟩

/-! ### Phase offsets -/

/-- While it stays at most `DUTY_MAX`, a rising amplitude climbs by one per
call. -/
theorem process_duty_climb (d k : Nat) (h : d + k ≤ 100) :
    process_duty^[k] ⟨d, pwm_state.RAISING⟩ = ⟨d + k, pwm_state.RAISING⟩ := by
  induction k with
  | zero => rfl
  | succ n ih =>
    have hlt : ¬ 100 ≤ d + n := by omega
    have hmod : (d + n + 1) % 256 = d + n + 1 := Nat.mod_eq_of_lt (by omega)
    rw [Function.iterate_succ_apply', ih (by omega)]
    simp only [process_duty, DUTY_MAX, PERIOD, hlt, hmod, and_false, if_false, if_true]
    simp [Nat.add_assoc]

/-- While it stays at least `DUTY_MIN`, a sinking 8-bit amplitude falls by one
per call. -/
theorem process_duty_fall (d k : Nat) (h : 5 + k ≤ d) (h8 : d < 256) :
    process_duty^[k] ⟨d, pwm_state.SINKING⟩ = ⟨d - k, pwm_state.SINKING⟩ := by
  induction k with
  | zero => rfl
  | succ n ih =>
    have hgt : ¬ d - n ≤ 5 := by omega
    have hmod : (d - n + 255) % 256 = d - (n + 1) := by omega
    rw [Function.iterate_succ_apply', ih (by omega)]
    simp [process_duty, DUTY_MIN, hgt, hmod]

/-- Every channel state inside the bounds is back after 192 calls of
`process_duty`: up to `DUTY_MAX`, one call of dwell, down to `DUTY_MIN`, one
call of dwell, and back to where it started. -/
theorem process_duty_iterate_192 (d : Nat) (hhi : d < 101) (hlo : 5 ≤ d) :
    process_duty^[192] ⟨d, pwm_state.RAISING⟩ = ⟨d, pwm_state.RAISING⟩ ∧
    process_duty^[192] ⟨d, pwm_state.SINKING⟩ = ⟨d, pwm_state.SINKING⟩ := by
  have htop : process_duty ⟨100, pwm_state.RAISING⟩ = ⟨100, pwm_state.SINKING⟩ := by decide
  have hbot : process_duty ⟨5, pwm_state.SINKING⟩ = ⟨5, pwm_state.RAISING⟩ := by decide
  have hdown : process_duty^[95] ⟨100, pwm_state.SINKING⟩ = ⟨5, pwm_state.SINKING⟩ :=
    process_duty_fall 100 95 (by omega) (by omega)
  have hup : process_duty^[95] ⟨5, pwm_state.RAISING⟩ = ⟨100, pwm_state.RAISING⟩ :=
    process_duty_climb 5 95 (by omega)
  constructor
  · have h192 : 192 = (d - 5) + (1 + (95 + (1 + (100 - d)))) := by omega
    have e1 := process_duty_climb d (100 - d) (by omega)
    have e3 := process_duty_climb 5 (d - 5) (by omega)
    rw [show d + (100 - d) = 100 by omega] at e1
    rw [show 5 + (d - 5) = d by omega] at e3
    rw [h192, Function.iterate_add_apply, Function.iterate_add_apply,
      Function.iterate_add_apply, Function.iterate_add_apply, e1, Function.iterate_one, htop,
      hdown, hbot, e3]
  · have h192 : 192 = (100 - d) + (1 + (95 + (1 + (d - 5)))) := by omega
    have e1 := process_duty_fall d (d - 5) (by omega) (by omega)
    have e3 := process_duty_fall 100 (100 - d) (by omega) (by omega)
    rw [show d - (d - 5) = 5 by omega] at e1
    rw [show 100 - (100 - d) = d by omega] at e3
    rw [h192, Function.iterate_add_apply, Function.iterate_add_apply,
      Function.iterate_add_apply, Function.iterate_add_apply, e1, Function.iterate_one, hbot,
      hup, htop, e3]

/-- With the lights on and a table of `led_pin_count` channels, `n` iterations
of the foreground loop map the `n`-fold `process_duty` over the table. -/
theorem main_loop_body_iterate (s : mcu) (hlen : s.pins.length = s.led_pin_count)
    (hl : s.lights_enabled = true) (n : Nat) :
    main_loop_body^[n] s = { s with pins := s.pins.map (process_duty^[n]) } := by
  induction n with
  | zero => simp
  | succ k ih =>
    have hon := main_loop_body_on { s with pins := s.pins.map (process_duty^[k]) }
      (by simpa using hlen) hl
    rw [Function.iterate_succ_apply', ih, hon]
    simp only [List.map_map, ← Function.iterate_succ']

/-- C19: every channel state with an amplitude inside `[DUTY_MIN, DUTY_MAX]`,
in either direction, is returned unchanged by 192 successive calls of
`process_duty`.  Hence 192 iterations of the foreground loop with the lights
on return a state whose channels are inside the bounds to itself, in
particular the state with the staggered table 33, 66, 99. -/
theorem phase_offsets_preserved :
    (∀ pin : led_pin, DUTY_MIN ≤ pin.duty → pin.duty ≤ DUTY_MAX →
      process_duty^[192] pin = pin) ∧
    (∀ s : mcu, s.lights_enabled = true → s.pins.length = s.led_pin_count →
      (∀ p ∈ s.pins, DUTY_MIN ≤ p.duty ∧ p.duty ≤ DUTY_MAX) →
      main_loop_body^[192] s = s) ∧
    (main_loop_body^[192] fresh_active).pins =
      [⟨33, pwm_state.RAISING⟩, ⟨66, pwm_state.RAISING⟩, ⟨99, pwm_state.RAISING⟩] := by
  have hpin : ∀ pin : led_pin, DUTY_MIN ≤ pin.duty → pin.duty ≤ DUTY_MAX →
      process_duty^[192] pin = pin := by
    rintro ⟨d, st⟩ hlo hhi
    simp only [DUTY_MIN, DUTY_MAX, PERIOD] at hlo hhi
    have h := process_duty_iterate_192 d (by omega) hlo
    cases st
    · exact h.2
    · exact h.1
  have hloop : ∀ s : mcu, s.lights_enabled = true → s.pins.length = s.led_pin_count →
      (∀ p ∈ s.pins, DUTY_MIN ≤ p.duty ∧ p.duty ≤ DUTY_MAX) →
      main_loop_body^[192] s = s := by
    intro s hl hlen hb
    rw [main_loop_body_iterate s hlen hl 192]
    have hmap : s.pins.map (process_duty^[192]) = s.pins := by
      conv_rhs => rw [← List.map_id s.pins]
      apply List.map_congr_left
      intro p hp
      exact hpin p (hb p hp).1 (hb p hp).2
    rw [hmap]
  refine ⟨hpin, hloop, ?_⟩
  rw [hloop fresh_active rfl rfl (fun p hp => stagger_three_bounded p hp)]
  rfl

/-- The period of C19 on the channel `(66, RAISING)` of the staggered table. -/
theorem phase_offsets_preserved_witness :
    process_duty^[192] ⟨66, pwm_state.RAISING⟩ = ⟨66, pwm_state.RAISING⟩ :=
  phase_offsets_preserved.1 ⟨66, pwm_state.RAISING⟩ (by decide) (by decide)

end GreenTwinkler
